import Mathlib

/-!
Verification of the aumos-sdks governance middleware against its
natural-language specification.

The Python sources are shallowly embedded:

* machine integers and timestamps become `Nat`/`Int`/`ℚ` (Python ints are
  arbitrary precision; `datetime` differences in seconds and monetary
  `float` amounts are modelled as exact rationals, and every concrete
  counterexample uses values that are exactly representable in binary
  floating point so the model and the floats agree on them);
* `float` values that only flow through JSON serialisation are carried as
  their shortest-repr decimal literal strings, which is exactly what
  `json.dumps` emits for them;
* fallible code returns sum types carrying the post-exception state;
* SHA-256 is implemented bit-for-bit over byte lists.
-/

namespace AumosSdks

/-! ## Bytes, hex, UTF-8 -/

/-- One 32-bit word modulus. -/
def M32 : Nat := 4294967296

/-- Addition modulo 2^32. -/
def add32 (a b : Nat) : Nat := (a + b) % M32

/-- Right rotation of a 32-bit word. -/
def rotr (x n : Nat) : Nat := ((x >>> n) ||| (x <<< (32 - n))) % M32

/-- Bitwise complement of a 32-bit word. -/
def not32 (x : Nat) : Nat := x ^^^ (M32 - 1)

/-- Big-endian byte decomposition, `n` bytes. -/
def beBytes : Nat → Nat → List Nat
  | 0, _ => []
  | n + 1, x => beBytes n (x >>> 8) ++ [x &&& 255]

/-- Lowercase hexadecimal digit for a value below 16. -/
def hexDigit (n : Nat) : Char :=
  if n < 10 then Char.ofNat (48 + n) else Char.ofNat (87 + n)

/-- Two lowercase hex digits for one byte. -/
def hexByte (b : Nat) : List Char := [hexDigit (b >>> 4), hexDigit (b &&& 15)]

/-- Lowercase hex string of a byte list. -/
def hexOfBytes (bs : List Nat) : String := ⟨(bs.map hexByte).flatten⟩

/-- UTF-8 encoding of one Unicode scalar value. -/
def utf8Char (c : Char) : List Nat :=
  let n := c.toNat
  if n < 128 then [n]
  else if n < 2048 then [192 ||| (n >>> 6), 128 ||| (n &&& 63)]
  else if n < 65536 then
    [224 ||| (n >>> 12), 128 ||| ((n >>> 6) &&& 63), 128 ||| (n &&& 63)]
  else
    [240 ||| (n >>> 18), 128 ||| ((n >>> 12) &&& 63),
     128 ||| ((n >>> 6) &&& 63), 128 ||| (n &&& 63)]

/-- UTF-8 encoding of a string. -/
def utf8 (s : String) : List Nat := (s.data.map utf8Char).flatten

/-! ## SHA-256 (FIPS 180-4) -/

/-- SHA-256 round constants. -/
def sha256K : List Nat :=
  [1116352408, 1899447441, 3049323471, 3921009573, 961987163, 1508970993,
   2453635748, 2870763221, 3624381080, 310598401, 607225278, 1426881987,
   1925078388, 2162078206, 2614888103, 3248222580, 3835390401, 4022224774,
   264347078, 604807628, 770255983, 1249150122, 1555081692, 1996064986,
   2554220882, 2821834349, 2952996808, 3210313671, 3336571891, 3584528711,
   113926993, 338241895, 666307205, 773529912, 1294757372, 1396182291,
   1695183700, 1986661051, 2177026350, 2456956037, 2730485921, 2820302411,
   3259730800, 3345764771, 3516065817, 3600352804, 4094571909, 275423344,
   430227734, 506948616, 659060556, 883997877, 958139571, 1322822218,
   1537002063, 1747873779, 1955562222, 2024104815, 2227730452, 2361852424,
   2428436474, 2756734187, 3204031479, 3329325298]

/-- SHA-256 initial hash value. -/
def sha256H0 : List Nat :=
  [1779033703, 3144134277, 1013904242, 2773480762,
   1359893119, 2600822924, 528734635, 1541459225]

/-- Group a (padded) byte list into 32-bit big-endian words. -/
def bytesToWords : List Nat → List Nat
  | b0 :: b1 :: b2 :: b3 :: rest =>
      (((b0 <<< 24) ||| (b1 <<< 16) ||| (b2 <<< 8) ||| b3) % M32) :: bytesToWords rest
  | _ => []

/-- Split a list into chunks of 16 elements, fuel-bounded. -/
def chunks16Go {α : Type} : Nat → List α → List (List α)
  | 0, _ => []
  | _, [] => []
  | fuel + 1, l => l.take 16 :: chunks16Go fuel (l.drop 16)

/-- Split a word list into 16-word blocks. -/
def chunks16 {α : Type} (l : List α) : List (List α) := chunks16Go l.length l

/-- SHA-256 message padding: 0x80, zeros, 64-bit big-endian bit length. -/
def sha256Pad (msg : List Nat) : List Nat :=
  let len := msg.length
  let zeros := (119 - (len % 64)) % 64
  msg ++ [128] ++ List.replicate zeros 0 ++ beBytes 8 (len * 8)

/-- Message-schedule extension: from 16 words to 64 words. -/
def sha256Schedule (block : List Nat) : Array Nat :=
  (List.range 48).foldl
    (fun arr i =>
      let t := i + 16
      let s0 :=
        rotr (arr.getD (t - 15) 0) 7 ^^^ rotr (arr.getD (t - 15) 0) 18 ^^^
          (arr.getD (t - 15) 0 >>> 3)
      let s1 :=
        rotr (arr.getD (t - 2) 0) 17 ^^^ rotr (arr.getD (t - 2) 0) 19 ^^^
          (arr.getD (t - 2) 0 >>> 10)
      arr.push (add32 (add32 s1 (arr.getD (t - 7) 0)) (add32 s0 (arr.getD (t - 16) 0))))
    block.toArray

/-- Working state of the SHA-256 compression function. -/
structure Sha256State where
  a : Nat
  b : Nat
  c : Nat
  d : Nat
  e : Nat
  f : Nat
  g : Nat
  hh : Nat

/-- One round of the SHA-256 compression function. -/
def sha256Round (w k : Nat) (s : Sha256State) : Sha256State :=
  let bigS1 := rotr s.e 6 ^^^ rotr s.e 11 ^^^ rotr s.e 25
  let ch := (s.e &&& s.f) ^^^ (not32 s.e &&& s.g)
  let t1 := add32 (add32 (add32 s.hh bigS1) (add32 ch k)) w
  let bigS0 := rotr s.a 2 ^^^ rotr s.a 13 ^^^ rotr s.a 22
  let maj := (s.a &&& s.b) ^^^ (s.a &&& s.c) ^^^ (s.b &&& s.c)
  let t2 := add32 bigS0 maj
  { a := add32 t1 t2, b := s.a, c := s.b, d := s.c,
    e := add32 s.d t1, f := s.e, g := s.f, hh := s.g }

/-- Compress one 16-word block into the running hash. -/
def sha256Compress (hcur : List Nat) (block : List Nat) : List Nat :=
  let w := sha256Schedule block
  let init : Sha256State :=
    { a := hcur.getD 0 0, b := hcur.getD 1 0, c := hcur.getD 2 0, d := hcur.getD 3 0,
      e := hcur.getD 4 0, f := hcur.getD 5 0, g := hcur.getD 6 0, hh := hcur.getD 7 0 }
  let fin := (List.range 64).foldl
    (fun s i => sha256Round (w.getD i 0) (sha256K.getD i 0) s) init
  [add32 (hcur.getD 0 0) fin.a, add32 (hcur.getD 1 0) fin.b,
   add32 (hcur.getD 2 0) fin.c, add32 (hcur.getD 3 0) fin.d,
   add32 (hcur.getD 4 0) fin.e, add32 (hcur.getD 5 0) fin.f,
   add32 (hcur.getD 6 0) fin.g, add32 (hcur.getD 7 0) fin.hh]

/-- SHA-256 digest (32 bytes) of a byte list. -/
def sha256Bytes (msg : List Nat) : List Nat :=
  let blocks := chunks16 (bytesToWords (sha256Pad msg))
  let final := blocks.foldl sha256Compress sha256H0
  (final.map (beBytes 4)).flatten

/-- Mirror of Python `hashlib.sha256(s.encode("utf-8")).hexdigest()`. -/
def sha256HexOfString (s : String) : String := hexOfBytes (sha256Bytes (utf8 s))

/-! ## A model of Python `json.dumps` on flat objects

The audit records serialised by the repository are JSON objects whose values
are strings, ints, floats, bools, null, or one further level of string-keyed
objects (the `metadata` / `details` dicts restricted to primitive values, as
the design notes require).  Floats are carried as their shortest-repr decimal
literals, which `json.dumps` emits verbatim. -/

/-- A scalar JSON value. -/
inductive JAtom where
  | s (v : String)
  | i (v : Int)
  | f (lit : String)
  | b (v : Bool)
  | null
deriving DecidableEq

/-- A JSON value: a scalar or a flat object of scalars. -/
inductive JVal where
  | a (x : JAtom)
  | o (kvs : List (String × JAtom))
deriving DecidableEq

/-- Four lowercase hex digits of a value below 2^16. -/
def hexDigit4 (n : Nat) : List Char :=
  [hexDigit ((n >>> 12) &&& 15), hexDigit ((n >>> 8) &&& 15),
   hexDigit ((n >>> 4) &&& 15), hexDigit (n &&& 15)]

/-- Escape of a control character (code point below 0x20), as in Python
`json.encoder`: the named short escapes, else a `\u00xx` sequence. -/
def escControl (n : Nat) : List Char :=
  if n = 8 then ['\\', 'b']
  else if n = 9 then ['\\', 't']
  else if n = 10 then ['\\', 'n']
  else if n = 12 then ['\\', 'f']
  else if n = 13 then ['\\', 'r']
  else '\\' :: 'u' :: hexDigit4 n

/-- Escape of one character inside a JSON string.  With `ensureAscii` every
code point outside 0x20..0x7e becomes a `\uxxxx` sequence (a surrogate pair
beyond the BMP); without it only the quote, the backslash and control
characters are escaped, as in `json.dumps(..., ensure_ascii=False)`. -/
def escapeChar (ensureAscii : Bool) (c : Char) : List Char :=
  let n := c.toNat
  if c = '"' then ['\\', '"']
  else if c = '\\' then ['\\', '\\']
  else if n < 32 then escControl n
  else if ensureAscii && n > 126 then
    if n < 65536 then '\\' :: 'u' :: hexDigit4 n
    else
      let m := n - 65536
      ('\\' :: 'u' :: hexDigit4 (55296 + (m >>> 10))) ++
        ('\\' :: 'u' :: hexDigit4 (56320 + (m &&& 1023)))
  else [c]

/-- JSON string literal, quoted and escaped. -/
def dumpString (ensureAscii : Bool) (v : String) : String :=
  ⟨'"' :: (v.data.map (escapeChar ensureAscii)).flatten ++ ['"']⟩

/-- Serialisation of a scalar JSON value. -/
def dumpAtom (ensureAscii : Bool) : JAtom → String
  | .s v => dumpString ensureAscii v
  | .i v => toString v
  | .f lit => lit
  | .b true => "true"
  | .b false => "false"
  | .null => "null"

/-- Boolean code-point-lexicographic strict order on character lists,
mirroring Python string comparison. -/
def charsLtB : List Char → List Char → Bool
  | [], [] => false
  | [], _ :: _ => true
  | _ :: _, [] => false
  | x :: xs, y :: ys =>
    if x.toNat < y.toNat then true
    else if y.toNat < x.toNat then false
    else charsLtB xs ys

/-- Key order used by `json.dumps(..., sort_keys=True)`. -/
def keyLeB (a b : String) : Bool := !(charsLtB b.data a.data)

/-- Insertion into a key-sorted association list. -/
def insertByKey {α : Type} (p : String × α) : List (String × α) → List (String × α)
  | [] => [p]
  | q :: rest => if keyLeB p.1 q.1 then p :: q :: rest else q :: insertByKey p rest

/-- Insertion sort of an association list by key (Python `sorted` on the
distinct keys of a dict). -/
def sortByKey {α : Type} : List (String × α) → List (String × α)
  | [] => []
  | p :: rest => insertByKey p (sortByKey rest)

/-- One `"key"<kvSep><value>` object member. -/
def dumpEntry {α : Type} (ensureAscii : Bool) (kvSep : String) (dumpV : α → String)
    (p : String × α) : String :=
  dumpString ensureAscii p.1 ++ kvSep ++ dumpV p.2

/-- Join strings with a separator (`sep.join(items)` in Python). -/
def joinSep (sep : String) : List String → String
  | [] => ""
  | [x] => x
  | x :: rest => x ++ sep ++ joinSep sep rest

/-- Serialise an object from an already-ordered member list. -/
def dumpObjCore {α : Type} (ensureAscii : Bool) (itemSep kvSep : String)
    (dumpV : α → String) (kvs : List (String × α)) : String :=
  "\x7b" ++ joinSep itemSep (kvs.map (dumpEntry ensureAscii kvSep dumpV)) ++ "\x7d"

/-- Serialise a JSON value (sorting nested objects when `sortKeys`). -/
def dumpJVal (sortKeys : Bool) (itemSep kvSep : String) (ensureAscii : Bool) : JVal → String
  | .a x => dumpAtom ensureAscii x
  | .o kvs =>
    dumpObjCore ensureAscii itemSep kvSep (dumpAtom ensureAscii)
      (if sortKeys then sortByKey kvs else kvs)

/-- Model of Python `json.dumps` applied to a flat dict, parameterised the
way the repository calls it: `sort_keys`, the two separators, and
`ensure_ascii`. -/
def pyDumps (sortKeys : Bool) (itemSep kvSep : String) (ensureAscii : Bool)
    (obj : List (String × JVal)) : String :=
  dumpObjCore ensureAscii itemSep kvSep (dumpJVal sortKeys itemSep kvSep ensureAscii)
    (if sortKeys then sortByKey obj else obj)

end AumosSdks

namespace AumosSdks.AuditTrail

/-! ## `audit_trail` package: records, hash chain, logger

Shallow embedding of `packages/audit-trail/python/src/audit_trail`
(`types.py`, `record.py`, `chain.py`, `logger.py`, `storage/memory.py`). -/

/-- `GENESIS_HASH = "0" * 64` from `chain.py`. -/
def GENESIS_HASH : String := ⟨List.replicate 64 '0'⟩

/-- `GovernanceDecisionInput` from `types.py`.  Float fields are carried as
their repr literals; `metadata` is a flat dict of primitive values. -/
structure GovernanceDecisionInput where
  agent_id : String
  action : String
  permitted : Bool
  trust_level : Option Int := none
  required_level : Option Int := none
  budget_used : Option String := none
  budget_remaining : Option String := none
  reason : Option String := none
  metadata : Option (List (String × JAtom)) := none
deriving DecidableEq

/-- `AuditRecord` from `types.py` (fields in declaration order). -/
structure AuditRecord where
  id : String
  timestamp : String
  agent_id : String
  action : String
  permitted : Bool
  trust_level : Option Int := none
  required_level : Option Int := none
  budget_used : Option String := none
  budget_remaining : Option String := none
  reason : Option String := none
  metadata : Option (List (String × JAtom)) := none
  previous_hash : String
  record_hash : String
deriving DecidableEq

/-- An optional scalar entry of a pending dict: present fields only. -/
def optEntry {α : Type} (k : String) (f : α → JAtom) : Option α → List (String × JVal)
  | none => []
  | some v => [(k, .a (f v))]

/-- The optional `metadata` entry of a pending dict. -/
def optMeta (k : String) : Option (List (String × JAtom)) → List (String × JVal)
  | none => []
  | some m => [(k, .o m)]

/-- `build_pending_record` from `record.py`: the dict in insertion order,
with the generated UUID and timestamp passed in explicitly. -/
def buildPendingRecord (d : GovernanceDecisionInput) (previousHash recordId timestamp : String) :
    List (String × JVal) :=
  [("id", .a (.s recordId)), ("timestamp", .a (.s timestamp)),
   ("agent_id", .a (.s d.agent_id)), ("action", .a (.s d.action)),
   ("permitted", .a (.b d.permitted)), ("previous_hash", .a (.s previousHash))] ++
  optEntry "trust_level" JAtom.i d.trust_level ++
  optEntry "required_level" JAtom.i d.required_level ++
  optEntry "budget_used" JAtom.f d.budget_used ++
  optEntry "budget_remaining" JAtom.f d.budget_remaining ++
  optEntry "reason" JAtom.s d.reason ++
  optMeta "metadata" d.metadata

/-- `_canonicalise` from `chain.py`:
`json.dumps(pending, sort_keys=True, ensure_ascii=False, separators=(",", ":"))`. -/
def canonicalise (pending : List (String × JVal)) : String :=
  pyDumps true "," ":" false pending

/-- `_compute_hash` from `chain.py`. -/
def computeHash (pending : List (String × JVal)) (previousHash : String) : String :=
  sha256HexOfString (canonicalise pending ++ "\n" ++ previousHash)

/-- `finalise_record` composed with `build_pending_record`: the completed
record for one decision given the chain tip and the generated id/timestamp. -/
def mkRecord (d : GovernanceDecisionInput) (previousHash recordId timestamp : String) :
    AuditRecord :=
  { id := recordId, timestamp := timestamp, agent_id := d.agent_id, action := d.action,
    permitted := d.permitted, trust_level := d.trust_level,
    required_level := d.required_level, budget_used := d.budget_used,
    budget_remaining := d.budget_remaining, reason := d.reason, metadata := d.metadata,
    previous_hash := previousHash,
    record_hash := computeHash (buildPendingRecord d previousHash recordId timestamp) previousHash }

/-- `record.model_dump(mode="json", exclude={"record_hash"})` followed by the
`is not None` filter in `HashChain.verify`: the present fields in model
declaration order. -/
def recordPendingDump (r : AuditRecord) : List (String × JVal) :=
  [("id", .a (.s r.id)), ("timestamp", .a (.s r.timestamp)),
   ("agent_id", .a (.s r.agent_id)), ("action", .a (.s r.action)),
   ("permitted", .a (.b r.permitted))] ++
  optEntry "trust_level" JAtom.i r.trust_level ++
  optEntry "required_level" JAtom.i r.required_level ++
  optEntry "budget_used" JAtom.f r.budget_used ++
  optEntry "budget_remaining" JAtom.f r.budget_remaining ++
  optEntry "reason" JAtom.s r.reason ++
  optMeta "metadata" r.metadata ++
  [("previous_hash", .a (.s r.previous_hash))]

/-- Result type of `HashChain.verify` (`ChainVerificationSuccess` /
`ChainVerificationFailure`; the failure reason text is not modelled). -/
inductive ChainVerificationResult where
  | success (record_count : Nat)
  | failure (record_count : Nat) (broken_at : Nat)
deriving DecidableEq

/-- The verification walk of `HashChain.verify`, with the running expected
previous hash and the running index made explicit. -/
def verifyGo (total : Nat) (expected : String) (idx : Nat) :
    List AuditRecord → ChainVerificationResult
  | [] => .success total
  | r :: rest =>
    if r.previous_hash ≠ expected then .failure total idx
    else if r.record_hash ≠ computeHash (recordPendingDump r) expected then .failure total idx
    else verifyGo total r.record_hash (idx + 1) rest

/-- `HashChain.verify` from `chain.py`. -/
def verify (records : List AuditRecord) : ChainVerificationResult :=
  verifyGo records.length GENESIS_HASH 0 records

/-- One `AuditLogger.log` input: the decision plus the UUID and timestamp the
logger generates for it. -/
structure LogInput where
  decision : GovernanceDecisionInput
  record_id : String
  timestamp : String
deriving DecidableEq

/-- The records produced by successive `AuditLogger.log` calls threading the
chain tip, oldest first (`logger.py` over `MemoryStorage`). -/
def loggerRunGo (tip : String) : List LogInput → List AuditRecord
  | [] => []
  | i :: rest =>
    let r := mkRecord i.decision tip i.record_id i.timestamp
    r :: loggerRunGo r.record_hash rest

/-- A fresh `AuditLogger` (empty `MemoryStorage`, chain at genesis) after
logging the given inputs: the stored records, oldest first. -/
def loggerRun (inputs : List LogInput) : List AuditRecord := loggerRunGo GENESIS_HASH inputs

set_option maxHeartbeats 8000000 in
/-- The pending dict reconstructed by `verify` from a logged record is a key
permutation of the dict that was hashed on `append` (`previous_hash` sits at
a different position), so key-sorting makes them coincide. -/
theorem sortByKey_pendingDump (d : GovernanceDecisionInput) (prev rid ts : String) :
    sortByKey (recordPendingDump (mkRecord d prev rid ts)) =
      sortByKey (buildPendingRecord d prev rid ts) := by
  rcases d with ⟨aid, act, perm, tl, rl, bu, br, rs, md⟩
  cases tl <;> cases rl <;> cases bu <;> cases br <;> cases rs <;> cases md <;> rfl

/-- `pyDumps` with sorted keys, unfolded to its ordered core. -/
theorem pyDumps_sorted (itemSep kvSep : String) (ensureAscii : Bool)
    (obj : List (String × JVal)) :
    pyDumps true itemSep kvSep ensureAscii obj =
      dumpObjCore ensureAscii itemSep kvSep (dumpJVal true itemSep kvSep ensureAscii)
        (sortByKey obj) := rfl

/-- Canonical serialisations of the reconstructed and the original pending
dict agree. -/
theorem canonicalise_pendingDump (d : GovernanceDecisionInput) (prev rid ts : String) :
    canonicalise (recordPendingDump (mkRecord d prev rid ts)) =
      canonicalise (buildPendingRecord d prev rid ts) := by
  unfold canonicalise
  rw [pyDumps_sorted, pyDumps_sorted, sortByKey_pendingDump]

/-- Recomputed hashes of the reconstructed and the original pending dict
agree. -/
theorem computeHash_pendingDump (d : GovernanceDecisionInput) (prev rid ts ph : String) :
    computeHash (recordPendingDump (mkRecord d prev rid ts)) ph =
      computeHash (buildPendingRecord d prev rid ts) ph := by
  unfold computeHash
  rw [canonicalise_pendingDump]

/-- The verification walk succeeds on any run of the logger, from any tip. -/
theorem verifyGo_loggerRunGo (inputs : List LogInput) (tip : String) (total idx : Nat) :
    verifyGo total tip idx (loggerRunGo tip inputs) = .success total := by
  induction inputs generalizing tip idx with
  | nil => rfl
  | cons i rest ih =>
    show verifyGo total tip idx
        (mkRecord i.decision tip i.record_id i.timestamp ::
          loggerRunGo (mkRecord i.decision tip i.record_id i.timestamp).record_hash rest) =
      .success total
    have hhash :
        computeHash (recordPendingDump (mkRecord i.decision tip i.record_id i.timestamp)) tip =
          (mkRecord i.decision tip i.record_id i.timestamp).record_hash :=
      computeHash_pendingDump i.decision tip i.record_id i.timestamp tip
    rw [verifyGo, if_neg (fun hne => hne rfl), if_neg (fun hne => hne hhash.symm)]
    exact ih _ _

/-- The logger produces one record per input. -/
theorem loggerRunGo_length (inputs : List LogInput) (tip : String) :
    (loggerRunGo tip inputs).length = inputs.length := by
  induction inputs generalizing tip with
  | nil => rfl
  | cons i rest ih =>
    show (mkRecord i.decision tip i.record_id i.timestamp ::
        loggerRunGo (mkRecord i.decision tip i.record_id i.timestamp).record_hash rest).length =
      rest.length + 1
    rw [List.length_cons, ih]

/-- **C1.** For every finite sequence of governance-decision inputs logged
through `AuditLogger.log` over an initially empty `HashChain` and empty
store, `HashChain.verify` applied to the stored records returns Success with
`record_count` equal to the number of appends: each record's
`previous_hash` links to its predecessor's `record_hash`, the first to the
genesis constant, and each `record_hash` re-derives identically from the
canonical serialisation. -/
theorem auditLogger_chain_verify_success (inputs : List LogInput) :
    verify (loggerRun inputs) = .success inputs.length := by
  unfold verify loggerRun
  rw [loggerRunGo_length]
  exact verifyGo_loggerRunGo inputs GENESIS_HASH inputs.length 0

end AumosSdks.AuditTrail

namespace AumosSdks.AuditTrail

open AumosSdks

/-- One entry of `model_dump(mode="json", exclude_none=False)`: an absent
optional scalar field serialises as `null`. -/
def optEntryAll {α : Type} (k : String) (f : α → JAtom) : Option α → String × JVal
  | none => (k, .a .null)
  | some v => (k, .a (f v))

/-- The `metadata` entry of `model_dump(..., exclude_none=False)`. -/
def optMetaAll (k : String) : Option (List (String × JAtom)) → String × JVal
  | none => (k, .a .null)
  | some m => (k, .o m)

/-- `record.model_dump(mode="json", exclude_none=False)` from
`FileStorage.append`: every field in declaration order, absent optional
fields as `null`, `record_hash` included. -/
def recordDumpAll (r : AuditRecord) : List (String × JVal) :=
  [("id", .a (.s r.id)), ("timestamp", .a (.s r.timestamp)),
   ("agent_id", .a (.s r.agent_id)), ("action", .a (.s r.action)),
   ("permitted", .a (.b r.permitted)),
   optEntryAll "trust_level" JAtom.i r.trust_level,
   optEntryAll "required_level" JAtom.i r.required_level,
   optEntryAll "budget_used" JAtom.f r.budget_used,
   optEntryAll "budget_remaining" JAtom.f r.budget_remaining,
   optEntryAll "reason" JAtom.s r.reason,
   optMetaAll "metadata" r.metadata,
   ("previous_hash", .a (.s r.previous_hash)), ("record_hash", .a (.s r.record_hash))]

/-- The line written by `FileStorage.append`:
`json.dumps(record.model_dump(mode="json", exclude_none=False)) + "\n"`,
i.e. `json.dumps` with its defaults — insertion-ordered keys, separators
`", "` and `": "`, `ensure_ascii=True` — then a newline. -/
def fileStorageLine (r : AuditRecord) : String :=
  pyDumps false ", " ": " true (recordDumpAll r) ++ "\n"

/-- The full record with only its present fields (the canonical-serialisation
input for a complete record, `record_hash` included). -/
def recordPresentDump (r : AuditRecord) : List (String × JVal) :=
  recordPendingDump r ++ [("record_hash", .a (.s r.record_hash))]

/-- Modelled from the spec (§6, canonical JSON and the NDJSON on-disk
format): one canonical-JSON object per line terminated by a newline — UTF-8,
keys sorted lexicographically, separators exactly `,` and `:` with no
whitespace, non-ASCII preserved literally, absent optional fields omitted. -/
def canonicalRecordLineSpec (r : AuditRecord) : String :=
  canonicalise (recordPresentDump r) ++ "\n"

end AumosSdks.AuditTrail

namespace AumosSdks

/-! ### Order facts about the key comparison and insertion sort -/

/-- `charsLtB` is irreflexive. -/
theorem charsLtB_irrefl (a : List Char) : charsLtB a a = false := by
  induction a with
  | nil => rfl
  | cons x xs ih => simp [charsLtB, ih]

/-- `charsLtB` is asymmetric. -/
theorem charsLtB_asymm (a b : List Char) (h : charsLtB a b = true) :
    charsLtB b a = false := by
  induction a generalizing b with
  | nil =>
    cases b with
    | nil => simp [charsLtB] at h
    | cons y ys => rfl
  | cons x xs ih =>
    cases b with
    | nil => simp [charsLtB] at h
    | cons y ys =>
      by_cases hxy : x.toNat < y.toNat
      · have hyx : ¬ y.toNat < x.toNat := by omega
        simp [charsLtB, hyx, hxy, Nat.lt_asymm hxy]
      · by_cases hyx : y.toNat < x.toNat
        · simp [charsLtB, hxy, hyx] at h
        · have h' : charsLtB xs ys = true := by simpa [charsLtB, hxy, hyx] using h
          simp [charsLtB, hxy, hyx, ih ys h']

/-- A strictly smaller key is accepted by `keyLeB`. -/
theorem keyLeB_of_lt {a b : String} (h : charsLtB a.data b.data = true) :
    keyLeB a b = true := by
  unfold keyLeB
  rw [charsLtB_asymm _ _ h]
  rfl

/-- `keyLeB` is reflexive. -/
theorem keyLeB_refl (a : String) : keyLeB a a = true := by
  unfold keyLeB
  rw [charsLtB_irrefl]
  rfl

/-- Members of `insertByKey p s` are `p` or members of `s`. -/
theorem mem_of_mem_insertByKey {α : Type} {q p : String × α} {s : List (String × α)}
    (h : q ∈ insertByKey p s) : q = p ∨ q ∈ s := by
  induction s with
  | nil => simp [insertByKey] at h; exact .inl h
  | cons x rest ih =>
    unfold insertByKey at h
    by_cases hle : keyLeB p.1 x.1
    · rw [if_pos hle] at h
      rcases List.mem_cons.mp h with h1 | h1
      · exact .inl h1
      · exact .inr h1
    · rw [if_neg hle] at h
      rcases List.mem_cons.mp h with h1 | h1
      · exact .inr (h1 ▸ List.mem_cons_self x rest)
      · rcases ih h1 with h2 | h2
        · exact .inl h2
        · exact .inr (List.mem_cons_of_mem x h2)

/-- Members of `sortByKey s` are members of `s`. -/
theorem mem_of_mem_sortByKey {α : Type} {q : String × α} {s : List (String × α)}
    (h : q ∈ sortByKey s) : q ∈ s := by
  induction s with
  | nil => simp [sortByKey] at h
  | cons x rest ih =>
    rcases mem_of_mem_insertByKey h with h1 | h1
    · exact h1 ▸ List.mem_cons_self x rest
    · exact List.mem_cons_of_mem x (ih h1)

/-- Inserting an element whose key is below every key of `s` prepends it. -/
theorem insertByKey_of_all_le {α : Type} (p : String × α) (s : List (String × α))
    (h : ∀ q ∈ s, keyLeB p.1 q.1 = true) : insertByKey p s = p :: s := by
  cases s with
  | nil => rfl
  | cons x rest =>
    unfold insertByKey
    rw [if_pos (h x (List.mem_cons_self x rest))]

/-- Sorting a list that contains an entry with a strictly minimal key puts
that entry first. -/
theorem sortByKey_min_cons {α : Type} (l : List (String × α)) (p : String × α)
    (hp : p ∈ l)
    (hmin : ∀ q ∈ l, q = p ∨ charsLtB p.1.data q.1.data = true) :
    ∃ t, sortByKey l = p :: t := by
  induction l with
  | nil => cases hp
  | cons x rest ih =>
    by_cases hxp : x = p
    · subst hxp
      refine ⟨sortByKey rest, ?_⟩
      show insertByKey x (sortByKey rest) = x :: sortByKey rest
      refine insertByKey_of_all_le x (sortByKey rest) (fun q hq => ?_)
      rcases hmin q (List.mem_cons_of_mem x (mem_of_mem_sortByKey hq)) with h1 | h1
      · rw [h1]
        exact keyLeB_refl x.1
      · exact keyLeB_of_lt h1
    · have hp' : p ∈ rest := by
        rcases List.mem_cons.mp hp with h1 | h1
        · exact absurd h1.symm hxp
        · exact h1
      obtain ⟨t, ht⟩ := ih hp' (fun q hq => hmin q (List.mem_cons_of_mem x hq))
      show ∃ t', insertByKey x (sortByKey rest) = p :: t'
      rw [ht]
      have hxlt : charsLtB p.1.data x.1.data = true := by
        rcases hmin x (List.mem_cons_self x rest) with h1 | h1
        · exact absurd h1 hxp
        · exact h1
      have hxle : keyLeB x.1 p.1 = false := by
        unfold keyLeB
        rw [hxlt]
        rfl
      refine ⟨insertByKey x t, ?_⟩
      show insertByKey x (p :: t) = p :: insertByKey x t
      have hstep : insertByKey x (p :: t) =
          if keyLeB x.1 p.1 = true then x :: p :: t else p :: insertByKey x t := rfl
      rw [hstep, if_neg (by simp [hxle])]

end AumosSdks

namespace AumosSdks.AuditTrail

open AumosSdks

/-- Any member of an `optEntry` carries that entry's key. -/
theorem fst_of_mem_optEntry {α : Type} {q : String × JVal} {k : String} {f : α → JAtom} :
    ∀ {o : Option α}, q ∈ optEntry k f o → q.1 = k
  | none, h => absurd h (List.not_mem_nil q)
  | some _, h => by rw [List.mem_singleton.mp h]

/-- Any member of an `optMeta` carries that entry's key. -/
theorem fst_of_mem_optMeta {q : String × JVal} {k : String} :
    ∀ {o : Option (List (String × JAtom))}, q ∈ optMeta k o → q.1 = k
  | none, h => absurd h (List.not_mem_nil q)
  | some _, h => by rw [List.mem_singleton.mp h]

/-- Every entry of the present-fields dump is the `action` entry or has a key
strictly above `"action"`. -/
theorem mem_presentDump_min (r : AuditRecord) :
    ∀ q ∈ recordPresentDump r,
      q = ("action", JVal.a (.s r.action)) ∨ charsLtB "action".data q.1.data = true := by
  intro q hq
  unfold recordPresentDump recordPendingDump at hq
  rcases List.mem_append.mp hq with h | h
  · rcases List.mem_append.mp h with h | h
    · rcases List.mem_append.mp h with h | h
      · rcases List.mem_append.mp h with h | h
        · rcases List.mem_append.mp h with h | h
          · rcases List.mem_append.mp h with h | h
            · rcases List.mem_append.mp h with h | h
              · rcases List.mem_append.mp h with h | h
                · simp only [List.mem_cons, List.not_mem_nil, or_false] at h
                  rcases h with h | h | h | h | h
                  · right; rw [show q.1 = "id" from by rw [h]]; decide
                  · right; rw [show q.1 = "timestamp" from by rw [h]]; decide
                  · right; rw [show q.1 = "agent_id" from by rw [h]]; decide
                  · exact .inl h
                  · right; rw [show q.1 = "permitted" from by rw [h]]; decide
                · right; rw [fst_of_mem_optEntry h]; decide
              · right; rw [fst_of_mem_optEntry h]; decide
            · right; rw [fst_of_mem_optEntry h]; decide
          · right; rw [fst_of_mem_optEntry h]; decide
        · right; rw [fst_of_mem_optEntry h]; decide
      · right; rw [fst_of_mem_optMeta h]; decide
    · right
      rw [show q.1 = "previous_hash" from by rw [List.mem_singleton.mp h]]
      decide
  · right
    rw [show q.1 = "record_hash" from by rw [List.mem_singleton.mp h]]
    decide

/-- Sorting the present-fields dump of a record puts the `action` entry
first. -/
theorem sorted_presentDump_cons (r : AuditRecord) :
    ∃ t, sortByKey (recordPresentDump r) = ("action", JVal.a (.s r.action)) :: t := by
  refine sortByKey_min_cons _ _ ?_ (mem_presentDump_min r)
  unfold recordPresentDump recordPendingDump
  simp

/-- The serialisation of an object whose first key is `"id"` under
`ensure_ascii=True` opens with the brace, a quote, and `i`. -/
theorem dumpObj_id_take3 (isep ksep : String) (dv : JVal → String) (v : JVal)
    (rest : List (String × JVal)) (tail : String) :
    ((dumpObjCore true isep ksep dv (("id", v) :: rest)) ++ tail).data.take 3 =
      ['\x7b', '"', 'i'] := by
  cases rest <;> rfl

/-- The serialisation of an object whose first key is `"action"` under
`ensure_ascii=False` opens with the brace, a quote, and `a`. -/
theorem dumpObj_action_take3 (isep ksep : String) (dv : JVal → String) (v : JVal)
    (rest : List (String × JVal)) (tail : String) :
    ((dumpObjCore false isep ksep dv (("action", v) :: rest)) ++ tail).data.take 3 =
      ['\x7b', '"', 'a'] := by
  cases rest <;> rfl

/-- The first three characters of the line `FileStorage.append` writes. -/
theorem fileStorageLine_take3 (r : AuditRecord) :
    (fileStorageLine r).data.take 3 = ['\x7b', '"', 'i'] :=
  dumpObj_id_take3 ", " ": " _ _ _ "\n"

/-- The first three characters of the canonical serialisation of a record. -/
theorem canonicalLine_take3 (r : AuditRecord) :
    (canonicalRecordLineSpec r).data.take 3 = ['\x7b', '"', 'a'] := by
  obtain ⟨t, ht⟩ := sorted_presentDump_cons r
  show (canonicalise (recordPresentDump r) ++ "\n").data.take 3 = _
  unfold canonicalise
  rw [pyDumps_sorted, ht]
  exact dumpObj_action_take3 "," ":" _ _ _ "\n"

/-- **C9 (amended).** Every line the file-backed audit store writes is one
JSON object terminated by a newline, but serialised with the Python
`json.dumps` defaults — keys in field-declaration order, separators with a
space, non-ASCII escaped, absent optional fields as `null` — and for every
record it differs from the canonical JSON of the appended record. -/
theorem fileStorage_line_not_canonical (r : AuditRecord) :
    fileStorageLine r ≠ canonicalRecordLineSpec r := by
  intro h
  have h3 := congrArg (fun s => s.data.take 3) h
  simp only [fileStorageLine_take3, canonicalLine_take3] at h3
  exact absurd h3 (by decide)

/-- A concrete stored record: only required fields present, metadata absent. -/
def sampleStoredRecord : AuditRecord :=
  { id := "a0b1", timestamp := "2026-01-01T00:00:00.000Z", agent_id := "agent-1",
    action := "send_email", permitted := true, previous_hash := GENESIS_HASH,
    record_hash := "0f" }

/-- **C9 (counterexample).** At a concrete record the line `FileStorage.append`
writes is not the canonical JSON of the record: the keys are unsorted, the
separators carry spaces, and the absent optional fields appear as `null`. -/
theorem fileStorage_line_not_canonical_at_sample :
    fileStorageLine sampleStoredRecord ≠ canonicalRecordLineSpec sampleStoredRecord := by
  decide

end AumosSdks.AuditTrail

namespace AumosSdks.GovernancePy

open AumosSdks

/-! ## `aumos_governance.audit_chain`: the second hash-chain implementation -/

/-- `HashChainedAuditLog._GENESIS_HASH =
hashlib.sha256(b"AUMOS_GENESIS_BLOCK").hexdigest()`. -/
def aumosGenesisHash : String := sha256HexOfString "AUMOS_GENESIS_BLOCK"

/-- `ChainedAuditRecord` from `audit_chain.py`; `details` is a flat dict of
primitive values. -/
structure ChainedAuditRecord where
  record_id : String
  timestamp : String
  agent_id : String
  action : String
  decision : String
  details : List (String × JAtom)
  previous_hash : String
  record_hash : String
deriving DecidableEq

/-- `_compute_record_hash`: `json.dumps` over the canonical fixed-order dict
with `separators=(",", ":")`, `sort_keys=False` and the default
`ensure_ascii=True`, then SHA-256. -/
def computeRecordHash (recordId timestamp agentId action decision : String)
    (details : List (String × JAtom)) (previousHash : String) : String :=
  sha256HexOfString (pyDumps false "," ":" true
    [("record_id", .a (.s recordId)), ("timestamp", .a (.s timestamp)),
     ("agent_id", .a (.s agentId)), ("action", .a (.s action)),
     ("decision", .a (.s decision)), ("details", .o details),
     ("previous_hash", .a (.s previousHash))])

/-- One `HashChainedAuditLog.append` input, with the generated UUID and
timestamp passed explicitly. -/
structure ChainAppendInput where
  agent_id : String
  action : String
  decision : String
  details : List (String × JAtom)
  record_id : String
  timestamp : String
deriving DecidableEq

/-- The record built by one `append` call at the given chain tip. -/
def chainAppendRecord (i : ChainAppendInput) (lastHash : String) : ChainedAuditRecord :=
  { record_id := i.record_id, timestamp := i.timestamp, agent_id := i.agent_id,
    action := i.action, decision := i.decision, details := i.details,
    previous_hash := lastHash,
    record_hash :=
      computeRecordHash i.record_id i.timestamp i.agent_id i.action i.decision
        i.details lastHash }

/-- `deque(maxlen=max_size).append`: when full, the oldest record is evicted
from the left. -/
def dequePush (maxSize : Nat) (acc : List ChainedAuditRecord) (r : ChainedAuditRecord) :
    List ChainedAuditRecord :=
  let acc2 := acc ++ [r]
  if maxSize < acc2.length then acc2.drop (acc2.length - maxSize) else acc2

/-- Successive `HashChainedAuditLog.append` calls threading the tip over the
bounded deque. -/
def chainLogGo (maxSize : Nat) (lastHash : String) (acc : List ChainedAuditRecord) :
    List ChainAppendInput → List ChainedAuditRecord × String
  | [] => (acc, lastHash)
  | i :: rest =>
    chainLogGo maxSize (chainAppendRecord i lastHash).record_hash
      (dequePush maxSize acc (chainAppendRecord i lastHash)) rest

/-- A fresh `HashChainedAuditLog(max_size)` after the given appends: the
retained records, oldest first. -/
def chainLogRun (maxSize : Nat) (inputs : List ChainAppendInput) :
    List ChainedAuditRecord :=
  (chainLogGo maxSize aumosGenesisHash [] inputs).1

/-- Pushing onto a deque that still has room appends on the right. -/
theorem dequePush_of_room (maxSize : Nat) (acc : List ChainedAuditRecord)
    (r : ChainedAuditRecord) (hroom : acc.length + 1 ≤ maxSize) :
    dequePush maxSize acc r = acc ++ [r] := by
  unfold dequePush
  rw [if_neg (by simp; omega)]

/-- While the deque stays within capacity, a run only ever appends to the
accumulated records. -/
theorem chainLogGo_no_evict (maxSize : Nat) (inputs : List ChainAppendInput) :
    ∀ (acc : List ChainedAuditRecord) (tip : String),
      acc.length + inputs.length ≤ maxSize →
      ∃ t, (chainLogGo maxSize tip acc inputs).1 = acc ++ t := by
  induction inputs with
  | nil => exact fun acc tip _ => ⟨[], (List.append_nil acc).symm⟩
  | cons i rest ih =>
    intro acc tip hlen
    simp only [chainLogGo]
    rw [dequePush_of_room maxSize acc _ (by simp at hlen ⊢; omega)]
    obtain ⟨t, ht⟩ :=
      ih (acc ++ [chainAppendRecord i tip]) (chainAppendRecord i tip).record_hash
        (by simp at hlen ⊢; omega)
    exact ⟨chainAppendRecord i tip :: t, by rw [ht, List.append_assoc]; rfl⟩

end AumosSdks.GovernancePy

namespace AumosSdks.GovernancePy

open AumosSdks

/-- A lowercase hexadecimal digit character. -/
def isLowerHexChar (c : Char) : Bool :=
  (48 ≤ c.toNat && c.toNat ≤ 57) || (97 ≤ c.toNat && c.toNat ≤ 102)

set_option maxRecDepth 10000 in
/-- **C6 (counterexample).** The genesis constant of
`HashChainedAuditLog` is `sha256(b"AUMOS_GENESIS_BLOCK")`, which is not the
sixty-four-zeros string, so the claim that the genesis constant of both
chain implementations is all zeros is false. -/
theorem aumosGenesis_not_all_zeros :
    aumosGenesisHash ≠ String.mk (List.replicate 64 '0') := by decide

set_option maxRecDepth 10000 in
set_option maxHeartbeats 1000000 in
/-- **C6 (amended).** In both chain implementations the first record appended
to a fresh chain carries the implementation's genesis constant as its
`previous_hash`, and both genesis constants are exactly sixty-four lowercase
hex characters; the `audit_trail.HashChain` constant is all zeros, while
`HashChainedAuditLog` uses the SHA-256 digest of `AUMOS_GENESIS_BLOCK`. -/
theorem genesis_constants_and_first_links :
    (∀ (d : AuditTrail.LogInput) (ds : List AuditTrail.LogInput),
        (AuditTrail.loggerRun (d :: ds)).head?.map AuditTrail.AuditRecord.previous_hash =
          some AuditTrail.GENESIS_HASH) ∧
    (∀ (maxSize : Nat) (i : ChainAppendInput) (ins : List ChainAppendInput),
        0 < maxSize → ins.length + 1 ≤ maxSize →
        (chainLogRun maxSize (i :: ins)).head?.map ChainedAuditRecord.previous_hash =
          some aumosGenesisHash) ∧
    (AuditTrail.GENESIS_HASH.length = 64 ∧
      AuditTrail.GENESIS_HASH.data.all (fun c => c == '0') = true) ∧
    (aumosGenesisHash.length = 64 ∧ aumosGenesisHash.data.all isLowerHexChar = true) := by
  refine ⟨fun d ds => rfl, ?_, by decide, by decide⟩
  intro maxSize i ins hms hlen
  unfold chainLogRun
  simp only [chainLogGo]
  rw [dequePush_of_room maxSize [] (chainAppendRecord i aumosGenesisHash)
    (by simpa using hms)]
  simp only [List.nil_append]
  obtain ⟨t, ht⟩ :=
    chainLogGo_no_evict maxSize ins [chainAppendRecord i aumosGenesisHash]
      (chainAppendRecord i aumosGenesisHash).record_hash (by simp; omega)
  rw [ht]
  rfl

set_option maxRecDepth 10000 in
/-- Witness for the amended C6 theorem at one concrete append on a fresh
default-sized log. -/
theorem genesis_constants_witness :
    (chainLogRun 10000 [⟨"agent-1", "tool_call", "allow", [], "rid-1", "ts-1"⟩]).head?.map
      ChainedAuditRecord.previous_hash = some aumosGenesisHash :=
  genesis_constants_and_first_links.2.1 10000
    ⟨"agent-1", "tool_call", "allow", [], "rid-1", "ts-1"⟩ [] (by decide) (by decide)

end AumosSdks.GovernancePy

namespace AumosSdks.TrustLadder

open AumosSdks

/-! ## `trust_ladder` package: levels, decay, scoped lookup

Shallow embedding of `packages/trust-ladder/python/src/trust_ladder`
(`levels.py`, `types.py`, `config.py`, `decay.py`, `assignment.py`,
`ladder.py`).  Times are milliseconds since the epoch as `Int`;
`math.floor(elapsed / step)` over Python floats is the exact floor of the
quotient for all realistic magnitudes, modelled as `Int` floor division
(`Int./`, i.e. `ediv`, which is that floor for the validated positive
`step_interval_ms`). -/

/-- `TRUST_LEVEL_MIN = TrustLevel.OBSERVER = 0`. -/
def TRUST_LEVEL_MIN : Nat := 0

/-- `TRUST_LEVEL_MAX = TrustLevel.AUTONOMOUS = 5`. -/
def TRUST_LEVEL_MAX : Nat := 5

/-- `clamp_trust_level` from `levels.py`. -/
def clampTrustLevel (v : Int) : Nat :=
  (max (TRUST_LEVEL_MIN : Int) (min (TRUST_LEVEL_MAX : Int) v)).toNat

/-- `TrustAssignment` from `types.py`. -/
structure TrustAssignment where
  agent_id : String
  scope : String := ""
  assigned_level : Nat
  assigned_at : Int
  reason : Option String := none
  assigned_by : Option String := none
deriving DecidableEq

/-- The decay configuration variants from `config.py` (`ttl_ms` and
`step_interval_ms` are validated positive at the pydantic boundary). -/
inductive DecayConfig where
  | noDecay
  | cliff (ttl_ms : Int)
  | gradual (step_interval_ms : Int)
deriving DecidableEq

/-- `DecayEngine.compute`'s effective level (`decay.py`): disabled decay
returns the assigned level; cliff drops to the floor once `ttl_ms` elapses;
gradual subtracts one level per full `step_interval_ms`, clamped. -/
def computeEffectiveLevel (cfg : DecayConfig) (a : TrustAssignment) (now_ms : Int) : Nat :=
  match cfg with
  | .noDecay => a.assigned_level
  | .cliff ttl_ms =>
    if now_ms - a.assigned_at ≥ ttl_ms then TRUST_LEVEL_MIN else a.assigned_level
  | .gradual step_ms =>
    let steps : Int := (now_ms - a.assigned_at) / step_ms
    clampTrustLevel (max (TRUST_LEVEL_MIN : Int) ((a.assigned_level : Int) - steps))

/-- `build_scope_key` from `types.py`. -/
def buildScopeKey (agent_id scope : String) : String := agent_id ++ "\x00" ++ scope

/-- `AssignmentStore.get`: the current-assignments dict keyed by scope key
(`assignment.py`; the history log has no effect on computed levels and is
not modelled here). -/
def lookupAssignment (m : List (String × TrustAssignment)) (agent scope : String) :
    Option TrustAssignment :=
  (m.find? (fun p => p.1 == buildScopeKey agent scope)).map (·.2)

/-- `TrustLadder.get_level` (`ladder.py`): resolve the scope (the ladder's
default scope, `""` by default, when none is given), look up exactly that
(agent, scope) key, apply decay; `TRUST_LEVEL_MIN` when absent.  The decay
history entry it may append does not change the returned level. -/
def getLevel (m : List (String × TrustAssignment)) (cfg : DecayConfig)
    (defaultScope : String) (agent : String) (scope : Option String) (now_ms : Int) : Nat :=
  match lookupAssignment m agent (scope.getD defaultScope) with
  | none => TRUST_LEVEL_MIN
  | some a => computeEffectiveLevel cfg a now_ms

/-- A store holding only a global (scope `""`) assignment at level 3. -/
def globalOnlyStore : List (String × TrustAssignment) :=
  [(buildScopeKey "a1" "", { agent_id := "a1", scope := "", assigned_level := 3,
                             assigned_at := 0 })]

/-- **C2 (counterexample).** With only a global assignment at level 3 and no
decay, `get_level` for the named scope `"payments"` returns
`TRUST_LEVEL_MIN = 0`, not the global level 3 the claim predicts: there is
no scoped-to-global fallback. -/
theorem getLevel_no_global_fallback :
    getLevel globalOnlyStore .noDecay "" "a1" (some "payments") 100 = 0 ∧
    getLevel globalOnlyStore .noDecay "" "a1" none 100 = 3 ∧
    (0 : Nat) ≠ 3 := by decide

/-- **C2 (amended).** `get_level` returns the decayed effective level of the
assignment stored at exactly the resolved scope — the given scope, or the
ladder's default scope when none is given — and returns `TRUST_LEVEL_MIN`
when no assignment exists at that scope, with no fallback from a named
scope to the global assignment. -/
theorem getLevel_exact_scope_lookup (m : List (String × TrustAssignment))
    (cfg : DecayConfig) (ds agent : String) (scope : Option String) (now_ms : Int) :
    (lookupAssignment m agent (scope.getD ds) = none →
      getLevel m cfg ds agent scope now_ms = TRUST_LEVEL_MIN) ∧
    (∀ a, lookupAssignment m agent (scope.getD ds) = some a →
      getLevel m cfg ds agent scope now_ms = computeEffectiveLevel cfg a now_ms) := by
  constructor
  · intro h
    unfold getLevel
    rw [h]
  · intro a h
    unfold getLevel
    rw [h]

/-- Witness for the amended C2 theorem: the empty-scope branch and the hit
branch, each at a concrete store. -/
theorem getLevel_exact_scope_lookup_witness :
    getLevel globalOnlyStore .noDecay "" "a1" (some "ops") 7 = TRUST_LEVEL_MIN ∧
    getLevel globalOnlyStore .noDecay "" "a1" none 7 =
      computeEffectiveLevel .noDecay
        { agent_id := "a1", scope := "", assigned_level := 3, assigned_at := 0 } 7 :=
  ⟨(getLevel_exact_scope_lookup globalOnlyStore .noDecay "" "a1" (some "ops") 7).1
      (by decide),
   (getLevel_exact_scope_lookup globalOnlyStore .noDecay "" "a1" none 7).2
      { agent_id := "a1", scope := "", assigned_level := 3, assigned_at := 0 }
      (by decide)⟩

end AumosSdks.TrustLadder


namespace AumosSdks.TrustLadder

open AumosSdks

/-- **C4 (counterexample).** Under gradual decay, evaluating an assignment at
a time before `assigned_at` yields an effective level above the assigned
level: with `step_interval_ms = 500`, `assigned_level = 3`,
`assigned_at = 1000`, the effective level at time 0 is 5 > 3, so
`effective(A, t) ≤ assignedLevel` does not hold at every time `t`. -/
theorem gradual_decay_exceeds_assigned_before_assignment :
    computeEffectiveLevel (.gradual 500)
      { agent_id := "a2", scope := "", assigned_level := 3, assigned_at := 1000 } 0 = 5 ∧
    ¬ (computeEffectiveLevel (.gradual 500)
      { agent_id := "a2", scope := "", assigned_level := 3, assigned_at := 1000 } 0 ≤ 3) := by
  decide

/-- **C4 (amended).** For both enabled decay variants the effective level is
antitone in the query time and never drops below `TRUST_LEVEL_MIN`; it never
exceeds the assigned level under cliff decay, and under gradual decay it
never exceeds the assigned level at any time at or after `assigned_at` (an
earlier query time can exceed it). -/
theorem decay_monotone_and_bounded (a : TrustAssignment) :
    (∀ ttl_ms t1 t2 : Int, t1 ≤ t2 →
        computeEffectiveLevel (.cliff ttl_ms) a t2 ≤
          computeEffectiveLevel (.cliff ttl_ms) a t1) ∧
    (∀ step_ms : Int, 0 < step_ms → ∀ t1 t2 : Int, t1 ≤ t2 →
        computeEffectiveLevel (.gradual step_ms) a t2 ≤
          computeEffectiveLevel (.gradual step_ms) a t1) ∧
    (∀ ttl_ms t : Int, computeEffectiveLevel (.cliff ttl_ms) a t ≤ a.assigned_level) ∧
    (∀ step_ms t : Int, 0 < step_ms → a.assigned_at ≤ t →
        computeEffectiveLevel (.gradual step_ms) a t ≤ a.assigned_level) ∧
    (∀ (cfg : DecayConfig) (t : Int),
        TRUST_LEVEL_MIN ≤ computeEffectiveLevel cfg a t) := by
  refine ⟨?_, ?_, ?_, ?_, ?_⟩
  · intro ttl_ms t1 t2 h12
    simp only [computeEffectiveLevel]
    by_cases h2 : t2 - a.assigned_at ≥ ttl_ms
    · rw [if_pos h2]
      exact Nat.zero_le _
    · rw [if_neg h2, if_neg (show ¬ t1 - a.assigned_at ≥ ttl_ms by omega)]
  · intro step_ms hstep t1 t2 h12
    have hs : (t1 - a.assigned_at) / step_ms ≤ (t2 - a.assigned_at) / step_ms :=
      Int.ediv_le_ediv hstep (by omega)
    simp only [computeEffectiveLevel, clampTrustLevel, TRUST_LEVEL_MIN, TRUST_LEVEL_MAX]
    generalize hA : (t1 - a.assigned_at) / step_ms = s1 at hs
    generalize hB : (t2 - a.assigned_at) / step_ms = s2 at hs
    omega
  · intro ttl_ms t
    simp only [computeEffectiveLevel]
    by_cases h2 : t - a.assigned_at ≥ ttl_ms
    · rw [if_pos h2]
      exact Nat.zero_le _
    · rw [if_neg h2]
  · intro step_ms t hstep hat
    have hsteps : 0 ≤ (t - a.assigned_at) / step_ms :=
      Int.ediv_nonneg (by omega) hstep.le
    simp only [computeEffectiveLevel, clampTrustLevel, TRUST_LEVEL_MIN, TRUST_LEVEL_MAX]
    generalize hA : (t - a.assigned_at) / step_ms = s1 at hsteps
    omega
  · intro cfg t
    exact Nat.zero_le _

/-- Witness for the amended C4 theorem: gradual decay of a level-5
assignment with a one-hour step — two hours in, the level is at most the
one-hour level and at most the assigned level. -/
theorem decay_monotone_and_bounded_witness :
    computeEffectiveLevel (.gradual 3600000)
        { agent_id := "a3", scope := "", assigned_level := 5, assigned_at := 0 } 7200000 ≤
      computeEffectiveLevel (.gradual 3600000)
        { agent_id := "a3", scope := "", assigned_level := 5, assigned_at := 0 } 3600000 ∧
    computeEffectiveLevel (.gradual 3600000)
        { agent_id := "a3", scope := "", assigned_level := 5, assigned_at := 0 } 7200000 ≤
      TrustAssignment.assigned_level
        { agent_id := "a3", scope := "", assigned_level := 5, assigned_at := 0 } :=
  ⟨(decay_monotone_and_bounded _).2.1 3600000 (by decide) 3600000 7200000 (by decide),
   (decay_monotone_and_bounded _).2.2.2.1 3600000 7200000 (by decide) (by decide)⟩

end AumosSdks.TrustLadder

namespace AumosSdks.BudgetEnforcer

open AumosSdks

/-! ## `budget_enforcer` package: envelopes, record, commit/release

Shallow embedding of `packages/budget-enforcer/python/src/budget_enforcer`
(`types.py`, `envelope.py`, `transaction.py`, `enforcer.py`).  Monetary
amounts and timestamps (seconds) are exact rationals. -/

/-- `Period` from `types.py`. -/
inductive Period where
  | hourly
  | daily
  | weekly
  | monthly
  | total
deriving DecidableEq

/-- `PERIOD_SECONDS` from `types.py`.  The table has no entry for `total`:
every caller short-circuits on `total` first, so the value returned for it
here is never observed. -/
def PERIOD_SECONDS : Period → ℚ
  | .hourly => 3600
  | .daily => 86400
  | .weekly => 604800
  | .monthly => 2592000
  | .total => 0

/-- `SpendingEnvelope` from `types.py`. -/
structure SpendingEnvelope where
  id : String
  category : String
  limit : ℚ
  period : Period
  spent : ℚ := 0
  committed : ℚ := 0
  period_start : ℚ
  suspended : Bool := false
deriving DecidableEq

/-- `refresh_envelope_period` from `envelope.py`: reset accumulators and
advance `period_start` by whole periods once the window has elapsed; the
`total` period never resets.  `int(elapsed // duration)` is the floor of
the quotient. -/
def refreshEnvelopePeriod (e : SpendingEnvelope) (now : ℚ) : SpendingEnvelope :=
  if e.period = .total then e
  else
    let duration := PERIOD_SECONDS e.period
    let elapsed := now - e.period_start
    if elapsed < duration then e
    else
      { e with
        spent := 0
        committed := 0
        period_start := e.period_start + (⌊elapsed / duration⌋ : ℚ) * duration }

/-- `available_balance` from `envelope.py`. -/
def available_balance (e : SpendingEnvelope) : ℚ :=
  max 0 (e.limit - e.spent - e.committed)

/-- `CheckReason` from `types.py`. -/
inductive CheckReason where
  | within_budget
  | exceeds_budget
  | no_envelope
  | suspended
deriving DecidableEq

/-- `BudgetCheckResult` from `types.py`. -/
structure BudgetCheckResult where
  permitted : Bool
  available : ℚ
  requested : ℚ
  limit : ℚ
  spent : ℚ
  committed : ℚ
  reason : CheckReason
deriving DecidableEq

/-- `Transaction` from `types.py`. -/
structure Transaction where
  id : String
  category : String
  amount : ℚ
  description : Option String := none
  timestamp : ℚ
  envelope_id : Option String := none
deriving DecidableEq

/-- `CommitResult` from `types.py`. -/
structure CommitResult where
  permitted : Bool
  commit_id : Option String
  available : ℚ
  requested : ℚ
  reason : CheckReason
deriving DecidableEq

/-- The mutable state of a `BudgetEnforcer`: envelopes keyed by category
(the source keeps an id-keyed dict plus a category-to-id index with one live
envelope per category, which this flattens), the transaction log, and the
pending commits (`commit_id -> (category, amount)`). -/
structure EnforcerState where
  envelopes : List (String × SpendingEnvelope)
  transactions : List Transaction
  commits : List (String × (String × ℚ))
deriving DecidableEq

/-- A fresh `BudgetEnforcer()`. -/
def emptyEnforcer : EnforcerState := ⟨[], [], []⟩

/-- `_get_envelope_by_category`. -/
def lookupEnvelope (st : EnforcerState) (category : String) : Option SpendingEnvelope :=
  (st.envelopes.find? (fun p => p.1 == category)).map (·.2)

/-- Overwrite the envelope stored under an existing category key. -/
def saveEnvelope (st : EnforcerState) (category : String) (e : SpendingEnvelope) :
    EnforcerState :=
  { st with envelopes := st.envelopes.map (fun p => if p.1 == category then (p.1, e) else p) }

/-- Insert or replace the envelope of a category. -/
def upsertEnvelope (l : List (String × SpendingEnvelope)) (category : String)
    (e : SpendingEnvelope) : List (String × SpendingEnvelope) :=
  if (l.find? (fun p => p.1 == category)).isSome then
    l.map (fun p => if p.1 == category then (p.1, e) else p)
  else l ++ [(category, e)]

/-- `create_envelope` as a state transition: pydantic validation
(`category` non-empty, `limit > 0`) fails before any mutation; on success a
fresh envelope replaces any existing one for the category. -/
def createEnvelopeOp (st : EnforcerState) (category : String) (lim : ℚ) (per : Period)
    (envId : String) (now : ℚ) : EnforcerState :=
  if category = "" ∨ lim ≤ 0 then st
  else
    { st with
      envelopes := upsertEnvelope st.envelopes category
        { id := envId, category := category, limit := lim, period := per,
          spent := 0, committed := 0, period_start := now, suspended := false } }

/-- `BudgetEnforcer.check`: no envelope, suspension, then
`amount <= available`.  `_refresh_period` persists the refreshed envelope,
so the (possibly) updated state is returned alongside the result. -/
def check (st : EnforcerState) (category : String) (amount : ℚ) (now : ℚ) :
    BudgetCheckResult × EnforcerState :=
  match lookupEnvelope st category with
  | none =>
    ({ permitted := false, available := 0, requested := amount, limit := 0,
       spent := 0, committed := 0, reason := .no_envelope }, st)
  | some e =>
    let e2 := refreshEnvelopePeriod e now
    let st2 := saveEnvelope st category e2
    if e2.suspended then
      ({ permitted := false, available := 0, requested := amount, limit := e2.limit,
         spent := e2.spent, committed := e2.committed, reason := .suspended }, st2)
    else
      let avail := available_balance e2
      ({ permitted := decide (amount ≤ avail), available := avail, requested := amount,
         limit := e2.limit, spent := e2.spent, committed := e2.committed,
         reason := if amount ≤ avail then .within_budget else .exceeds_budget }, st2)

/-- The outcome of `BudgetEnforcer.record`: the transaction, or the
`KeyError` for a missing envelope, or the `ValueError` that
`build_transaction` raises for a non-positive amount.  There is no
budget-exceeded outcome in the source. -/
inductive RecordOutcome where
  | ok (t : Transaction)
  | errNoEnvelope
  | errNonPositiveAmount
deriving DecidableEq

/-- `BudgetEnforcer.record`: require the envelope, refresh its period
(persisted even if validation then fails), validate the amount inside
`build_transaction`, then increment `spent` unconditionally and append the
transaction. -/
def record (st : EnforcerState) (category : String) (amount : ℚ)
    (description : Option String) (now : ℚ) (txId : String) :
    RecordOutcome × EnforcerState :=
  match lookupEnvelope st category with
  | none => (.errNoEnvelope, st)
  | some e =>
    let e2 := refreshEnvelopePeriod e now
    let st2 := saveEnvelope st category e2
    if amount ≤ 0 then (.errNonPositiveAmount, st2)
    else
      let t : Transaction := { id := txId, category := category, amount := amount,
                               description := description, timestamp := now,
                               envelope_id := some e2.id }
      let st3 := saveEnvelope st2 category { e2 with spent := e2.spent + amount }
      (.ok t, { st3 with transactions := st3.transactions ++ [t] })

/-- `BudgetEnforcer.commit`: run `check`; when permitted, increment
`committed` and register the pending commit.  (The `assert` that the
envelope exists after a permitted check cannot fire; that branch leaves the
state unchanged.) -/
def commit (st : EnforcerState) (category : String) (amount : ℚ) (now : ℚ)
    (commitId : String) : CommitResult × EnforcerState :=
  let cr := check st category amount now
  if cr.1.permitted = false then
    ({ permitted := false, commit_id := none, available := cr.1.available,
       requested := amount, reason := cr.1.reason }, cr.2)
  else
    match lookupEnvelope cr.2 category with
    | none => ({ permitted := false, commit_id := none, available := cr.1.available,
                 requested := amount, reason := cr.1.reason }, cr.2)
    | some e =>
      let e2 := { e with committed := e.committed + amount }
      ({ permitted := true, commit_id := some commitId,
         available := available_balance e2, requested := amount,
         reason := .within_budget },
       { saveEnvelope cr.2 category e2 with
         commits := cr.2.commits ++ [(commitId, (category, amount))] })

/-- `BudgetEnforcer.release`: idempotent; floors `committed` at zero and
drops the pending commit. -/
def release (st : EnforcerState) (commitId : String) : EnforcerState :=
  match (st.commits.find? (fun p => p.1 == commitId)).map (·.2) with
  | none => st
  | some ca =>
    let st2 :=
      match lookupEnvelope st ca.1 with
      | none => st
      | some e => saveEnvelope st ca.1 { e with committed := max 0 (e.committed - ca.2) }
    { st2 with commits := st2.commits.filter (fun p => !(p.1 == commitId)) }

/-- `suspend_envelope` / `resume_envelope`: toggle the flag; the `KeyError`
for a missing category mutates nothing. -/
def setSuspended (st : EnforcerState) (category : String) (flag : Bool) : EnforcerState :=
  match lookupEnvelope st category with
  | none => st
  | some e => saveEnvelope st category { e with suspended := flag }

/-- `utilization`: requires the envelope and refreshes its period; the
snapshot itself reads no further state. -/
def utilizationOp (st : EnforcerState) (category : String) (now : ℚ) : EnforcerState :=
  match lookupEnvelope st category with
  | none => st
  | some e => saveEnvelope st category (refreshEnvelopePeriod e now)

/-- One public `BudgetEnforcer` operation with its caller-supplied
arguments (generated ids and the wall-clock instant passed explicitly). -/
inductive Op where
  | createEnv (category : String) (lim : ℚ) (per : Period) (envId : String) (now : ℚ)
  | check (category : String) (amount : ℚ) (now : ℚ)
  | record (category : String) (amount : ℚ) (description : Option String) (now : ℚ)
      (txId : String)
  | commit (category : String) (amount : ℚ) (now : ℚ) (commitId : String)
  | release (commitId : String)
  | suspend (category : String)
  | resume (category : String)
  | utilization (category : String) (now : ℚ)
deriving DecidableEq

/-- The state transition of one operation. -/
def stepOp (st : EnforcerState) : Op → EnforcerState
  | .createEnv c l p id now => createEnvelopeOp st c l p id now
  | .check c a now => (check st c a now).2
  | .record c a d now tx => (record st c a d now tx).2
  | .commit c a now cid => (commit st c a now cid).2
  | .release cid => release st cid
  | .suspend c => setSuspended st c true
  | .resume c => setSuspended st c false
  | .utilization c now => utilizationOp st c now

/-- Run a finite operation sequence from a fresh enforcer. -/
def runOps (ops : List Op) : EnforcerState := ops.foldl stepOp emptyEnforcer

end AumosSdks.BudgetEnforcer

namespace AumosSdks.BudgetEnforcer

open AumosSdks

/-- The claimed invariant: every stored envelope has nonnegative `spent`
and `committed`. -/
def EnvNonneg (st : EnforcerState) : Prop :=
  ∀ p ∈ st.envelopes, 0 ≤ p.2.spent ∧ 0 ≤ p.2.committed

/-- A period refresh keeps the accumulators nonnegative (they are either
kept or zeroed). -/
theorem refresh_nonneg (e : SpendingEnvelope) (now : ℚ)
    (h : 0 ≤ e.spent ∧ 0 ≤ e.committed) :
    0 ≤ (refreshEnvelopePeriod e now).spent ∧
      0 ≤ (refreshEnvelopePeriod e now).committed := by
  simp only [refreshEnvelopePeriod]
  split_ifs
  · exact h
  · exact h
  · exact ⟨le_refl 0, le_refl 0⟩

/-- Members of a `saveEnvelope` result carry the new envelope or were
already present. -/
theorem mem_saveEnvelope {st : EnforcerState} {c : String} {e : SpendingEnvelope}
    {q : String × SpendingEnvelope} (h : q ∈ (saveEnvelope st c e).envelopes) :
    q.2 = e ∨ q ∈ st.envelopes := by
  simp only [saveEnvelope, List.mem_map] at h
  obtain ⟨p, hp, hq⟩ := h
  by_cases hc : p.1 == c
  · rw [if_pos hc] at hq
    exact .inl (by rw [← hq])
  · rw [if_neg hc] at hq
    exact .inr (hq ▸ hp)

/-- Members of an `upsertEnvelope` result carry the new envelope or were
already present. -/
theorem mem_upsertEnvelope {l : List (String × SpendingEnvelope)} {c : String}
    {e : SpendingEnvelope} {q : String × SpendingEnvelope}
    (h : q ∈ upsertEnvelope l c e) : q.2 = e ∨ q ∈ l := by
  unfold upsertEnvelope at h
  split_ifs at h
  · simp only [List.mem_map] at h
    obtain ⟨p, hp, hq⟩ := h
    by_cases hc : p.1 == c
    · rw [if_pos hc] at hq
      exact .inl (by rw [← hq])
    · rw [if_neg hc] at hq
      exact .inr (hq ▸ hp)
  · rcases List.mem_append.mp h with h1 | h1
    · exact .inr h1
    · exact .inl (by rw [List.mem_singleton.mp h1])

/-- A successful category lookup returns a stored envelope. -/
theorem mem_of_lookup {st : EnforcerState} {c : String} {e : SpendingEnvelope}
    (h : lookupEnvelope st c = some e) : ∃ k, (k, e) ∈ st.envelopes := by
  unfold lookupEnvelope at h
  cases hf : st.envelopes.find? (fun p => p.1 == c) with
  | none => rw [hf] at h; simp at h
  | some p =>
    rw [hf] at h
    have h2 : p.2 = e := by simpa using h
    refine ⟨p.1, ?_⟩
    have hp := List.mem_of_find?_eq_some hf
    rw [← h2, Prod.mk.eta]
    exact hp

/-- The nonnegativity bundle for one looked-up envelope. -/
theorem lookup_nonneg {st : EnforcerState} {c : String} {e : SpendingEnvelope}
    (hinv : EnvNonneg st) (h : lookupEnvelope st c = some e) :
    0 ≤ e.spent ∧ 0 ≤ e.committed := by
  obtain ⟨k, hk⟩ := mem_of_lookup h
  exact hinv (k, e) hk

/-- `check` preserves the invariant (it only persists a refresh). -/
theorem check_preserves (st : EnforcerState) (c : String) (a now : ℚ)
    (hinv : EnvNonneg st) : EnvNonneg (check st c a now).2 := by
  unfold check
  cases hl : lookupEnvelope st c with
  | none => exact hinv
  | some e =>
    have hsave : EnvNonneg (saveEnvelope st c (refreshEnvelopePeriod e now)) := by
      intro q hq
      rcases mem_saveEnvelope hq with h1 | h1
      · rw [h1]
        exact refresh_nonneg e now (lookup_nonneg hinv hl)
      · exact hinv q h1
    by_cases hs : (refreshEnvelopePeriod e now).suspended
    · simpa [hs] using hsave
    · simpa [hs] using hsave

end AumosSdks.BudgetEnforcer

namespace AumosSdks.BudgetEnforcer

open AumosSdks

/-- Writing a nonnegative envelope into a nonnegative state keeps the
invariant. -/
theorem saveEnvelope_preserves (s : EnforcerState) (c : String) (e : SpendingEnvelope)
    (hs : EnvNonneg s) (h1 : 0 ≤ e.spent) (h2 : 0 ≤ e.committed) :
    EnvNonneg (saveEnvelope s c e) := by
  intro q hq
  rcases mem_saveEnvelope hq with h | h
  · rw [h]
    exact ⟨h1, h2⟩
  · exact hs q h

/-- `record` preserves the invariant when the amount validation passes or
fails (the amount recorded is positive by `build_transaction`). -/
theorem record_preserves (st : EnforcerState) (c : String) (a : ℚ) (d : Option String)
    (now : ℚ) (tx : String) (hinv : EnvNonneg st) :
    EnvNonneg (record st c a d now tx).2 := by
  unfold record
  cases hl : lookupEnvelope st c with
  | none => exact hinv
  | some e =>
    have hre := refresh_nonneg e now (lookup_nonneg hinv hl)
    have hsave := saveEnvelope_preserves st c _ hinv hre.1 hre.2
    by_cases ha : a ≤ 0
    · simpa [ha] using hsave
    · have h3 := saveEnvelope_preserves (saveEnvelope st c (refreshEnvelopePeriod e now)) c
        { refreshEnvelopePeriod e now with
          spent := (refreshEnvelopePeriod e now).spent + a }
        hsave (add_nonneg hre.1 (not_le.mp ha).le) hre.2
      simp only [ha, if_false]
      exact fun q hq => h3 q hq

/-- `commit` preserves the invariant for nonnegative amounts. -/
theorem commit_preserves (st : EnforcerState) (c : String) (a now : ℚ) (cid : String)
    (ha : 0 ≤ a) (hinv : EnvNonneg st) : EnvNonneg (commit st c a now cid).2 := by
  have hc := check_preserves st c a now hinv
  unfold commit
  dsimp only
  split_ifs
  · exact hc
  · cases hl : lookupEnvelope (check st c a now).2 c with
    | none => exact hc
    | some e =>
      have h3 := saveEnvelope_preserves (check st c a now).2 c
        { e with committed := e.committed + a }
        hc (lookup_nonneg hc hl).1 (add_nonneg (lookup_nonneg hc hl).2 ha)
      exact fun q hq => h3 q hq

/-- `release` preserves the invariant (it floors `committed` at zero). -/
theorem release_preserves (st : EnforcerState) (cid : String) (hinv : EnvNonneg st) :
    EnvNonneg (release st cid) := by
  unfold release
  cases hf : (st.commits.find? (fun p => p.1 == cid)).map (·.2) with
  | none => exact hinv
  | some ca =>
    dsimp only
    cases hl : lookupEnvelope st ca.1 with
    | none => exact fun q hq => hinv q hq
    | some e =>
      have h3 := saveEnvelope_preserves st ca.1
        { e with committed := max 0 (e.committed - ca.2) }
        hinv (lookup_nonneg hinv hl).1 (le_max_left 0 _)
      exact fun q hq => h3 q hq

/-- Suspension toggles preserve the invariant. -/
theorem setSuspended_preserves (st : EnforcerState) (c : String) (flag : Bool)
    (hinv : EnvNonneg st) : EnvNonneg (setSuspended st c flag) := by
  unfold setSuspended
  cases hl : lookupEnvelope st c with
  | none => exact hinv
  | some e =>
    exact saveEnvelope_preserves st c { e with suspended := flag } hinv
      (lookup_nonneg hinv hl).1 (lookup_nonneg hinv hl).2

/-- The `utilization` refresh preserves the invariant. -/
theorem utilizationOp_preserves (st : EnforcerState) (c : String) (now : ℚ)
    (hinv : EnvNonneg st) : EnvNonneg (utilizationOp st c now) := by
  unfold utilizationOp
  cases hl : lookupEnvelope st c with
  | none => exact hinv
  | some e =>
    have hre := refresh_nonneg e now (lookup_nonneg hinv hl)
    exact saveEnvelope_preserves st c _ hinv hre.1 hre.2

/-- `create_envelope` preserves the invariant (fresh accumulators are
zero). -/
theorem createEnvelopeOp_preserves (st : EnforcerState) (c : String) (l : ℚ)
    (p : Period) (id : String) (now : ℚ) (hinv : EnvNonneg st) :
    EnvNonneg (createEnvelopeOp st c l p id now) := by
  unfold createEnvelopeOp
  split_ifs
  · exact hinv
  · intro q hq
    rcases mem_upsertEnvelope hq with h | h
    · rw [h]
      exact ⟨le_refl 0, le_refl 0⟩
    · exact hinv q h

/-- The amended claim's guard: every `commit` amount is nonnegative (the
only operation that feeds an unvalidated amount into an accumulator). -/
def commitAmountNonneg : Op → Bool
  | .commit _ a _ _ => decide (0 ≤ a)
  | _ => true

/-- One step preserves the invariant under the guard. -/
theorem stepOp_preserves (st : EnforcerState) (op : Op)
    (hop : commitAmountNonneg op = true) (hinv : EnvNonneg st) :
    EnvNonneg (stepOp st op) := by
  cases op with
  | createEnv c l p id now => exact createEnvelopeOp_preserves st c l p id now hinv
  | check c a now => exact check_preserves st c a now hinv
  | record c a d now tx => exact record_preserves st c a d now tx hinv
  | commit c a now cid =>
    exact commit_preserves st c a now cid (of_decide_eq_true hop) hinv
  | release cid => exact release_preserves st cid hinv
  | suspend c => exact setSuspended_preserves st c true hinv
  | resume c => exact setSuspended_preserves st c false hinv
  | utilization c now => exact utilizationOp_preserves st c now hinv

/-- The invariant holds along any guarded run from any invariant state. -/
theorem foldl_stepOp_nonneg (ops : List Op) :
    ∀ (st : EnforcerState), EnvNonneg st →
      (∀ op ∈ ops, commitAmountNonneg op = true) →
      EnvNonneg (ops.foldl stepOp st) := by
  induction ops with
  | nil => exact fun st hst _ => hst
  | cons op rest ih =>
    intro st hst hops
    exact ih (stepOp st op)
      (stepOp_preserves st op (hops op (List.mem_cons_self op rest)) hst)
      (fun o ho => hops o (List.mem_cons_of_mem op ho))

/-- **C5 (amended).** After any finite sequence of `BudgetEnforcer`
operations in which every `commit` amount is nonnegative, every envelope
satisfies `spent ≥ 0` and `committed ≥ 0`.  (`record` already rejects
non-positive amounts itself; `commit` performs no such validation, so a
negative commit amount can drive `committed` below zero.) -/
theorem budget_spent_committed_nonneg (ops : List Op)
    (h : ∀ op ∈ ops, commitAmountNonneg op = true) : EnvNonneg (runOps ops) :=
  foldl_stepOp_nonneg ops emptyEnforcer
    (fun q hq => absurd hq (List.not_mem_nil q)) h

/-- Witness for the amended C5 theorem over a create / commit / record /
release run. -/
theorem budget_spent_committed_nonneg_witness :
    EnvNonneg (runOps [.createEnv "c" 1 .total "e1" 0, .commit "c" 1 0 "k1",
      .record "c" 1 none 0 "t1", .release "k1"]) :=
  budget_spent_committed_nonneg _ (by decide)

/-- A run whose `commit` carries a negative amount. -/
def negativeCommitOps : List Op :=
  [.createEnv "c" 1 .total "e1" 0, .commit "c" (-5) 0 "k1"]

/-- **C5 (counterexample).** `commit` accepts a negative amount (the check
`amount <= available` passes) and drives `committed` to −5 < 0, so the
invariant fails for some operation sequence. -/
theorem commit_negative_breaks_invariant :
    (lookupEnvelope (runOps negativeCommitOps) "c").map SpendingEnvelope.committed =
      some (-5) ∧ ¬ EnvNonneg (runOps negativeCommitOps) := by
  have hlook : (lookupEnvelope (runOps negativeCommitOps) "c").map
      SpendingEnvelope.committed = some (-5) := by
    norm_num [negativeCommitOps, runOps, stepOp, createEnvelopeOp, upsertEnvelope,
      emptyEnforcer, commit, check, lookupEnvelope, saveEnvelope,
      refreshEnvelopePeriod, available_balance, List.find?]
  refine ⟨hlook, fun h => ?_⟩
  cases hE : lookupEnvelope (runOps negativeCommitOps) "c" with
  | none => rw [hE] at hlook; simp at hlook
  | some e =>
    rw [hE] at hlook
    have he : e.committed = -5 := by simpa using hlook
    obtain ⟨k, hk⟩ := mem_of_lookup hE
    have h2 := (h (k, e) hk).2
    rw [he] at h2
    norm_num at h2

end AumosSdks.BudgetEnforcer

namespace AumosSdks.BudgetEnforcer

open AumosSdks

/-- Replacing the envelope under a key that `find?` already hits makes the
next `find?` return the replacement. -/
theorem find?_map_replace (l : List (String × SpendingEnvelope)) (c : String)
    (e' : SpendingEnvelope)
    (h : (l.find? (fun p => p.1 == c)).isSome = true) :
    ((l.map (fun p => if p.1 == c then (p.1, e') else p)).find?
        (fun p => p.1 == c)).map (·.2) = some e' := by
  induction l with
  | nil => simp [List.find?] at h
  | cons x xs ih =>
    by_cases hx : (x.1 == c) = true
    · simp [List.find?, hx]
    · have hx' : (x.1 == c) = false := by
        cases hb : (x.1 == c)
        · rfl
        · exact absurd hb hx
      simp only [List.find?_cons, hx'] at h
      simp only [List.map_cons]
      rw [if_neg hx]
      simp only [List.find?_cons, hx']
      exact ih h

/-- Looking the category up again after `saveEnvelope` yields the new
envelope. -/
theorem lookup_saveEnvelope (st : EnforcerState) (c : String) (e e' : SpendingEnvelope)
    (h : lookupEnvelope st c = some e) :
    lookupEnvelope (saveEnvelope st c e') c = some e' := by
  have hsome : (st.envelopes.find? (fun p => p.1 == c)).isSome = true := by
    unfold lookupEnvelope at h
    cases hf : st.envelopes.find? (fun p => p.1 == c) with
    | none => rw [hf] at h; simp at h
    | some p => rfl
  exact find?_map_replace st.envelopes c e' hsome

/-- **C3 (amended).** `BudgetEnforcer.record` has exactly two error cases:
the missing-envelope error (state unchanged) and the `ValueError` that
`build_transaction` raises for a non-positive amount (state already
mutated: the period refresh is persisted before the exception).  For every
positive amount the call succeeds and adds the full amount to `spent`,
regardless of the available balance — no `BudgetExceeded` error exists in
`record` and there is no overdraft switch. -/
theorem record_spec (st : EnforcerState) (c : String) (a : ℚ) (d : Option String)
    (now : ℚ) (tx : String) :
    (lookupEnvelope st c = none → record st c a d now tx = (.errNoEnvelope, st)) ∧
    (∀ e, lookupEnvelope st c = some e → a ≤ 0 →
      record st c a d now tx =
        (.errNonPositiveAmount, saveEnvelope st c (refreshEnvelopePeriod e now))) ∧
    (∀ e, lookupEnvelope st c = some e → 0 < a →
      (record st c a d now tx).1 =
        .ok { id := tx, category := c, amount := a, description := d, timestamp := now,
              envelope_id := some (refreshEnvelopePeriod e now).id } ∧
      lookupEnvelope (record st c a d now tx).2 c =
        some { refreshEnvelopePeriod e now with
               spent := (refreshEnvelopePeriod e now).spent + a }) := by
  refine ⟨?_, ?_, ?_⟩
  · intro h
    unfold record
    rw [h]
  · intro e he ha
    unfold record
    rw [he]
    dsimp only
    rw [if_pos ha]
  · intro e he ha
    unfold record
    rw [he]
    dsimp only
    rw [if_neg (not_le.mpr ha)]
    refine ⟨rfl, ?_⟩
    have h1 := lookup_saveEnvelope st c e (refreshEnvelopePeriod e now) he
    exact lookup_saveEnvelope _ c _ _ h1

/-- One-envelope state used to exercise `record`: category `"c"`, limit 1,
period `total`. -/
def sampleEnvelopeState : EnforcerState :=
  createEnvelopeOp emptyEnforcer "c" 1 .total "e1" 0

/-- The envelope stored in `sampleEnvelopeState`. -/
def sampleEnvelope : SpendingEnvelope :=
  { id := "e1", category := "c", limit := 1, period := .total, spent := 0,
    committed := 0, period_start := 0, suspended := false }

/-- Witness for the amended C3 theorem: all three branches at concrete
inputs. -/
theorem record_spec_witness :
    record emptyEnforcer "c" 1 none 0 "t" = (.errNoEnvelope, emptyEnforcer) ∧
    record sampleEnvelopeState "c" 0 none 0 "t" =
      (.errNonPositiveAmount,
        saveEnvelope sampleEnvelopeState "c" (refreshEnvelopePeriod sampleEnvelope 0)) ∧
    ((record sampleEnvelopeState "c" 1 none 0 "t").1 =
        .ok { id := "t", category := "c", amount := 1, description := none, timestamp := 0,
              envelope_id := some (refreshEnvelopePeriod sampleEnvelope 0).id } ∧
      lookupEnvelope (record sampleEnvelopeState "c" 1 none 0 "t").2 "c" =
        some { refreshEnvelopePeriod sampleEnvelope 0 with
               spent := (refreshEnvelopePeriod sampleEnvelope 0).spent + 1 }) :=
  ⟨(record_spec emptyEnforcer "c" 1 none 0 "t").1 rfl,
   (record_spec sampleEnvelopeState "c" 0 none 0 "t").2.1 sampleEnvelope rfl (by decide),
   (record_spec sampleEnvelopeState "c" 1 none 0 "t").2.2 sampleEnvelope rfl (by decide)⟩

/-- **C3 (counterexample).** With available balance 1, recording amount 5
succeeds: the transaction is returned, `spent` becomes 5, and no
budget-exceeded error is raised even though `5 > 1`. -/
theorem record_never_raises_budget_exceeded :
    (lookupEnvelope sampleEnvelopeState "c").map available_balance = some 1 ∧
    (record sampleEnvelopeState "c" 5 none 0 "t1").1 =
      .ok { id := "t1", category := "c", amount := 5, description := none,
            timestamp := 0, envelope_id := some "e1" } ∧
    (lookupEnvelope (record sampleEnvelopeState "c" 5 none 0 "t1").2 "c").map
        SpendingEnvelope.spent = some 5 ∧
    ¬ ((5 : ℚ) ≤ 1) := by
  refine ⟨?_, ?_, ?_, by norm_num⟩
  · norm_num [sampleEnvelopeState, createEnvelopeOp, upsertEnvelope, emptyEnforcer,
      lookupEnvelope, available_balance, List.find?, max_def]
  · norm_num [sampleEnvelopeState, createEnvelopeOp, upsertEnvelope, emptyEnforcer,
      record, lookupEnvelope, saveEnvelope, refreshEnvelopePeriod, List.find?]
  · norm_num [sampleEnvelopeState, createEnvelopeOp, upsertEnvelope, emptyEnforcer,
      record, lookupEnvelope, saveEnvelope, refreshEnvelopePeriod, List.find?]

end AumosSdks.BudgetEnforcer

namespace AumosSdks.BudgetEnforcer

open AumosSdks

/-- Every recurring period has a positive duration. -/
theorem period_seconds_pos (p : Period) (h : p ≠ .total) : 0 < PERIOD_SECONDS p := by
  cases p
  · norm_num [PERIOD_SECONDS]
  · norm_num [PERIOD_SECONDS]
  · norm_num [PERIOD_SECONDS]
  · norm_num [PERIOD_SECONDS]
  · exact absurd rfl h

/-- **C8.** `refresh_envelope_period`: a `total` envelope is never reset;
a recurring envelope is untouched inside its window; once at least one
full duration has elapsed the accumulators reset to zero and
`period_start` advances by exactly `floor(elapsed/duration)` whole
durations — landing inside the current window (at most `now`, and less
than one duration before `now`). -/
theorem refresh_period_spec (e : SpendingEnvelope) (now : ℚ) :
    (e.period = .total → refreshEnvelopePeriod e now = e) ∧
    (e.period ≠ .total → now - e.period_start < PERIOD_SECONDS e.period →
      refreshEnvelopePeriod e now = e) ∧
    (e.period ≠ .total → PERIOD_SECONDS e.period ≤ now - e.period_start →
      (refreshEnvelopePeriod e now).spent = 0 ∧
      (refreshEnvelopePeriod e now).committed = 0 ∧
      (refreshEnvelopePeriod e now).period_start =
        e.period_start +
          (⌊(now - e.period_start) / PERIOD_SECONDS e.period⌋ : ℚ) *
            PERIOD_SECONDS e.period) ∧
    (e.period ≠ .total → PERIOD_SECONDS e.period ≤ now - e.period_start →
      (refreshEnvelopePeriod e now).period_start ≤ now ∧
      now - (refreshEnvelopePeriod e now).period_start < PERIOD_SECONDS e.period) := by
  refine ⟨?_, ?_, ?_, ?_⟩
  · intro h
    unfold refreshEnvelopePeriod
    rw [if_pos h]
  · intro h hlt
    unfold refreshEnvelopePeriod
    rw [if_neg h]
    dsimp only
    rw [if_pos hlt]
  · intro h hle
    unfold refreshEnvelopePeriod
    rw [if_neg h]
    dsimp only
    rw [if_neg (not_lt.mpr hle)]
    exact ⟨rfl, rfl, rfl⟩
  · intro h hle
    have hpos : 0 < PERIOD_SECONDS e.period := period_seconds_pos e.period h
    have h1 := Int.sub_floor_div_mul_nonneg (now - e.period_start) hpos
    have h2 := Int.sub_floor_div_mul_lt (now - e.period_start) hpos
    unfold refreshEnvelopePeriod
    rw [if_neg h]
    dsimp only
    rw [if_neg (not_lt.mpr hle)]
    constructor
    · dsimp only
      linarith
    · dsimp only
      linarith

/-- A daily envelope with accumulated spending, one day and an hour before
`now = 90000`. -/
def sampleDailyEnvelope : SpendingEnvelope :=
  { id := "e", category := "c", limit := 10, period := .daily, spent := 7,
    committed := 3, period_start := 0, suspended := false }

/-- Witness for C8: the reset branch at a concrete daily envelope. -/
theorem refresh_period_spec_witness :
    PERIOD_SECONDS Period.daily ≤ (90000 : ℚ) - 0 ∧
    ((refreshEnvelopePeriod sampleDailyEnvelope 90000).spent = 0 ∧
     (refreshEnvelopePeriod sampleDailyEnvelope 90000).committed = 0 ∧
     (refreshEnvelopePeriod sampleDailyEnvelope 90000).period_start =
       0 + (⌊((90000 : ℚ) - 0) / PERIOD_SECONDS Period.daily⌋ : ℚ) *
         PERIOD_SECONDS Period.daily) :=
  have hle : PERIOD_SECONDS Period.daily ≤ (90000 : ℚ) - 0 :=
    (sub_zero (90000 : ℚ)).symm ▸ (by decide : PERIOD_SECONDS Period.daily ≤ (90000 : ℚ))
  ⟨hle, (refresh_period_spec sampleDailyEnvelope 90000).2.2.1 (by decide) hle⟩

end AumosSdks.BudgetEnforcer

namespace AumosSdks.GovernancePy

open AumosSdks

/-! ### The `GovernanceEngine` pipeline (`engine.py` and its managers)

`datetime.date` values are modelled as proleptic-Gregorian
year/month/day triples, `datetime` instants and float amounts as `ℚ`,
and the wall clock (`date.today()` / `datetime.now(...)`) is threaded as
an explicit argument.  Generated UUIDs are likewise caller-supplied.
`GovernanceOutcome` is a `str` subclass in the source, so outcomes are
the plain strings `"allow"`, `"deny"` and `"allow_with_caveat"`.
Raised exceptions become `Except.error` of a `GovError` that carries the
exception type and its structured arguments (the formatted message text
is not modelled).  `period` strings are embedded as the inductive of the
five values admitted by `BUDGET_PERIOD_VALUES`; the `InvalidPeriodError`
branch for other strings is therefore unrepresentable here. -/

/-- A proleptic-Gregorian `datetime.date`. -/
structure GDate where
  year : Int
  month : Int
  day : Int
deriving DecidableEq

/-- Python `date` comparison: lexicographic on (year, month, day). -/
def gdateLe (a b : GDate) : Bool :=
  decide (a.year < b.year) ||
    (a.year == b.year &&
      (decide (a.month < b.month) ||
        (a.month == b.month && decide (a.day ≤ b.day))))

/-- Gregorian leap-year rule. -/
def isLeap (y : Int) : Bool :=
  (y % 4 == 0 && y % 100 != 0) || y % 400 == 0

/-- Number of days in a month. -/
def daysInMonth (y m : Int) : Int :=
  if m = 2 then (if isLeap y then 29 else 28)
  else if m = 4 ∨ m = 6 ∨ m = 9 ∨ m = 11 then 30
  else 31

/-- The day after a date (`timedelta(days=1)`). -/
def succDate (d : GDate) : GDate :=
  if d.day < daysInMonth d.year d.month then { d with day := d.day + 1 }
  else if d.month < 12 then { year := d.year, month := d.month + 1, day := 1 }
  else { year := d.year + 1, month := 1, day := 1 }

/-- `base + timedelta(days=n)`. -/
def addDays (d : GDate) : Nat → GDate
  | 0 => d
  | n + 1 => succDate (addDays d n)

/-- Days before the first of a month within the year. -/
def daysBeforeMonth (y m : Int) : Int :=
  let base :=
    if m = 1 then 0 else if m = 2 then 31 else if m = 3 then 59
    else if m = 4 then 90 else if m = 5 then 120 else if m = 6 then 151
    else if m = 7 then 181 else if m = 8 then 212 else if m = 9 then 243
    else if m = 10 then 273 else if m = 11 then 304 else 334
  if 3 ≤ m ∧ isLeap y then base + 1 else base

/-- Rata-die ordinal of a date (0001-01-01 has ordinal 1). -/
def rataDie (d : GDate) : Int :=
  365 * (d.year - 1) + (d.year - 1) / 4 - (d.year - 1) / 100 + (d.year - 1) / 400 +
    daysBeforeMonth d.year d.month + d.day

/-- `date.weekday()`: Monday = 0 … Sunday = 6. -/
def weekday (d : GDate) : Int :=
  (rataDie d - 1) % 7

/-- `datetime.date.max`. -/
def dateMax : GDate := ⟨9999, 12, 31⟩

/-- The validated budget periods of `BUDGET_PERIOD_VALUES`. -/
inductive GPeriod where
  | daily
  | weekly
  | monthly
  | yearly
  | lifetime
deriving DecidableEq

/-- `next_reset_date` from `budget/policy.py`. -/
def nextResetDate (p : GPeriod) (base : GDate) : GDate :=
  match p with
  | .daily => addDays base 1
  | .weekly =>
    let k : Int := (7 - weekday base) % 7
    addDays base (if k = 0 then 7 else k.toNat)
  | .monthly =>
    if base.month = 12 then ⟨base.year + 1, 1, 1⟩ else ⟨base.year, base.month + 1, 1⟩
  | .yearly => ⟨base.year + 1, 1, 1⟩
  | .lifetime => dateMax

/-- `should_reset` from `budget/policy.py` (with `as_of` the explicit
wall-clock date). -/
def shouldReset (p : GPeriod) (lastReset asOf : GDate) : Bool :=
  match p with
  | .lifetime => false
  | _ => gdateLe (nextResetDate p lastReset) asOf

/-- `apply_rollover` from `budget/policy.py`. -/
def applyRollover (spent lim : ℚ) (rollover : Bool) : ℚ :=
  if rollover = false then lim
  else min (lim + max 0 (lim - spent)) (lim * 2)

/-- The raised exceptions of `errors.py` (type and structured
arguments). -/
inductive GovError where
  | valueError
  | budgetNotFound (category : String)
  | budgetExceeded (category : String) (requested available : ℚ)
  | assertFailed
deriving DecidableEq

/-- `SpendingTransaction` from `budget/tracker.py`. -/
structure GSpendingTransaction where
  category : String
  amount : ℚ
  description : Option String
  recorded_at : ℚ
deriving DecidableEq

/-- `BudgetEnvelope` from `budget/tracker.py`. -/
structure GBudgetEnvelope where
  category : String
  limit : ℚ
  period : GPeriod
  effective_limit : ℚ
  spent : ℚ
  last_reset : GDate
  transactions : List GSpendingTransaction
deriving DecidableEq

/-- `BudgetEnvelope.remaining`. -/
def gRemaining (e : GBudgetEnvelope) : ℚ := e.effective_limit - e.spent

/-- `CategoryTracker.get`: the `_envelopes` dict as an association list. -/
def gTrackerGet (tr : List (String × GBudgetEnvelope)) (c : String) :
    Option GBudgetEnvelope :=
  (tr.find? (fun p => p.1 == c)).map (·.2)

/-- Overwrite the envelope stored under an existing category key. -/
def gTrackerSave (tr : List (String × GBudgetEnvelope)) (c : String)
    (e : GBudgetEnvelope) : List (String × GBudgetEnvelope) :=
  tr.map (fun p => if p.1 == c then (p.1, e) else p)

/-- `BudgetManager.create_budget` (manager validation then
`CategoryTracker.create`, with `date.today()` explicit). -/
def createBudget (tr : List (String × GBudgetEnvelope)) (category : String)
    (lim : ℚ) (p : GPeriod) (today : GDate) :
    Except GovError (List (String × GBudgetEnvelope)) :=
  if lim < 0 then .error .valueError
  else match gTrackerGet tr category with
    | some _ => .error .valueError
    | none =>
      .ok (tr ++ [(category,
        { category := category, limit := lim, period := p, effective_limit := lim,
          spent := 0, last_reset := today, transactions := [] })])

/-- `BudgetManager._maybe_reset`. -/
def maybeReset (rollover : Bool) (tr : List (String × GBudgetEnvelope))
    (category : String) (today : GDate) : List (String × GBudgetEnvelope) :=
  match gTrackerGet tr category with
  | none => tr
  | some env =>
    if shouldReset env.period env.last_reset today then
      gTrackerSave tr category
        { env with
          spent := 0
          effective_limit := applyRollover env.spent env.limit rollover
          last_reset := today
          transactions := [] }
    else tr

/-- `CategoryTracker.record`. -/
def gTrackerRecord (tr : List (String × GBudgetEnvelope)) (category : String)
    (amount : ℚ) (desc : Option String) (nowTs : ℚ) :
    Except GovError (GSpendingTransaction × List (String × GBudgetEnvelope)) :=
  if amount ≤ 0 then .error .valueError
  else match gTrackerGet tr category with
    | none => .error .assertFailed
    | some env =>
      let t : GSpendingTransaction :=
        { category := category, amount := amount, description := desc,
          recorded_at := nowTs }
      .ok (t, gTrackerSave tr category
        { env with
          spent := env.spent + amount
          transactions := env.transactions ++ [t] })

/-- `BudgetManager.record_spending`: require the envelope, maybe reset,
overdraft guard, then record. -/
def recordSpending (allowOverdraft rollover : Bool)
    (tr : List (String × GBudgetEnvelope)) (category : String) (amount : ℚ)
    (desc : Option String) (today : GDate) (nowTs : ℚ) :
    Except GovError (GSpendingTransaction × List (String × GBudgetEnvelope)) :=
  match gTrackerGet tr category with
  | none => .error (.budgetNotFound category)
  | some _ =>
    let tr1 := maybeReset rollover tr category today
    match gTrackerGet tr1 category with
    | none => .error .assertFailed
    | some env =>
      if allowOverdraft = false ∧ env.effective_limit < env.spent + amount then
        .error (.budgetExceeded category amount (gRemaining env))
      else gTrackerRecord tr1 category amount desc nowTs

/-- CPython `f"{x:.4f}"` (round half to even at four decimals) on the
rational standing in for the float. -/
def formatQ4 (q : ℚ) : String :=
  let sign := if q < 0 then "-" else ""
  let scaled : ℚ := |q| * 10000
  let fl : Int := ⌊scaled⌋
  let frac : ℚ := scaled - (fl : ℚ)
  let n : Int :=
    if 1 / 2 < frac then fl + 1
    else if frac < 1 / 2 then fl
    else if fl % 2 = 0 then fl else fl + 1
  let fpStr := toString (n % 10000).toNat
  sign ++ toString (n / 10000) ++ "." ++
    String.mk (List.replicate (4 - fpStr.length) '0') ++ fpStr

/-- `BudgetCheckResult` from `budget/manager.py`. -/
structure GBudgetCheckResult where
  allowed : Bool
  category : String
  requested : ℚ
  available : ℚ
  limit : ℚ
  spent : ℚ
  reason : String
deriving DecidableEq

/-- `BudgetManager.check_budget`: read-only; raises `BudgetNotFoundError`
for an unknown category. -/
def checkBudget (tr : List (String × GBudgetEnvelope)) (category : String)
    (amount : ℚ) : Except GovError GBudgetCheckResult :=
  match gTrackerGet tr category with
  | none => .error (.budgetNotFound category)
  | some env =>
    let available := gRemaining env
    .ok { allowed := decide (amount ≤ available), category := category,
          requested := amount, available := available,
          limit := env.effective_limit, spent := env.spent,
          reason :=
            if amount ≤ available then
              "Category '" ++ category ++ "': " ++ formatQ4 amount ++
                " requested, " ++ formatQ4 available ++ " available (" ++
                formatQ4 env.spent ++ " of " ++ formatQ4 env.effective_limit ++
                " spent)."
            else
              "Category '" ++ category ++ "': " ++ formatQ4 amount ++
                " requested but only " ++ formatQ4 available ++ " remains (" ++
                formatQ4 env.spent ++ " of " ++ formatQ4 env.effective_limit ++
                " spent)." }

end AumosSdks.GovernancePy

namespace AumosSdks.GovernancePy

open AumosSdks

/-- `TrustLevel.label()` from `types.py` (levels outside the enum range
cannot be constructed by the source). -/
def levelLabel : Nat → String
  | 0 => "Observer"
  | 1 => "Monitor"
  | 2 => "Suggest"
  | 3 => "Act (Approval Required)"
  | 4 => "Act (Report After)"
  | 5 => "Autonomous"
  | _ => ""

/-- `TrustCheckResult` from `trust/validator.py`. -/
structure GTrustCheckResult where
  allowed : Bool
  agent_id : String
  required_level : Nat
  actual_level : Nat
  scope : Option String
  reason : String
deriving DecidableEq

/-- The `f" in scope '{scope}'" if scope else ""` fragment (falsy for both
`None` and the empty string). -/
def scopeText : Option String → String
  | some s => if s = "" then "" else " in scope '" ++ s ++ "'"
  | none => ""

/-- `validate_trust` from `trust/validator.py`. -/
def validateTrust (agent : String) (required actual : Nat)
    (scope : Option String) : GTrustCheckResult :=
  { allowed := decide (required ≤ actual), agent_id := agent,
    required_level := required, actual_level := actual, scope := scope,
    reason :=
      if required ≤ actual then
        "Agent '" ++ agent ++ "'" ++ scopeText scope ++ " has trust level " ++
          levelLabel actual ++ " (" ++ toString actual ++
          "), which satisfies the required level " ++ levelLabel required ++
          " (" ++ toString required ++ ")."
      else
        "Agent '" ++ agent ++ "'" ++ scopeText scope ++ " has trust level " ++
          levelLabel actual ++ " (" ++ toString actual ++
          "), which is below the required level " ++ levelLabel required ++
          " (" ++ toString required ++ ")." }

/-- `_TrustEntry` from `trust/manager.py` (timestamps as `ℚ` instants). -/
structure GTrustEntry where
  level : Nat
  scope : Option String
  assigned_at : ℚ
  last_active : ℚ
  assigned_by : Option String
deriving DecidableEq

/-- `TrustConfig` (decay thresholds in days; `None` disables a mode). -/
structure TrustConfigM where
  default_level : Nat
  enable_decay : Bool
  decay_cliff_days : Option ℚ
  decay_gradual_days : Option ℚ
deriving DecidableEq

/-- The `_store` dict keyed by `(agent_id, scope)`. -/
def trustLookup (store : List ((String × Option String) × GTrustEntry))
    (key : String × Option String) : Option GTrustEntry :=
  (store.find? (fun p => p.1 == key)).map (·.2)

/-- `TrustManager._resolve_entry`: scoped entry first, then the global
(`scope=None`) entry. -/
def resolveEntry (store : List ((String × Option String) × GTrustEntry))
    (agent : String) (scope : Option String) : Option GTrustEntry :=
  match scope with
  | some s =>
    match trustLookup store (agent, some s) with
    | some e => some e
    | none => trustLookup store (agent, none)
  | none => trustLookup store (agent, none)

/-- `days_inactive >= threshold`, where `none` models the infinite
inactivity of a missing `last_active`. -/
def daysGe (d : Option ℚ) (threshold : ℚ) : Bool :=
  match d with
  | none => true
  | some x => decide (threshold ≤ x)

/-- One-tier decrement with the `L0` floor. -/
def decayStep (l : Nat) : Nat := if 0 < l then l - 1 else l

/-- `calculate_decay` from `trust/decay.py`: at most one tier is lost per
query; cliff decay takes precedence over gradual decay. -/
def calculateDecay (currentLevel : Nat) (lastActive : Option ℚ) (now : ℚ)
    (cliffDays gradualDays : Option ℚ) : Nat :=
  if cliffDays = none ∧ gradualDays = none then currentLevel
  else
    let d := lastActive.map (fun t => (now - t) / 86400)
    if (match cliffDays with | some c => daysGe d c | none => false) = true then
      decayStep currentLevel
    else if (match gradualDays with | some g => daysGe d g | none => false) = true then
      decayStep currentLevel
    else currentLevel

/-- `TrustManager.get_level`: resolve, default for unknown agents, then
decay when enabled. -/
def getTrustLevel (cfg : TrustConfigM)
    (store : List ((String × Option String) × GTrustEntry)) (agent : String)
    (scope : Option String) (now : ℚ) : Nat :=
  match resolveEntry store agent scope with
  | none => cfg.default_level
  | some e =>
    if cfg.enable_decay = false then e.level
    else calculateDecay e.level (some e.last_active) now
      cfg.decay_cliff_days cfg.decay_gradual_days

/-- `TrustManager.check_level`. -/
def checkLevel (cfg : TrustConfigM)
    (store : List ((String × Option String) × GTrustEntry)) (agent : String)
    (required : Nat) (scope : Option String) (now : ℚ) : GTrustCheckResult :=
  validateTrust agent required (getTrustLevel cfg store agent scope now) scope

/-- `ConsentRecord` from `consent/store.py`. -/
structure ConsentRecordM where
  agent_id : String
  data_type : String
  purpose : Option String
  granted_by : String
  granted_at : ℚ
  expires_at : Option ℚ
deriving DecidableEq

/-- `ConsentRecord.is_expired` at the explicit instant `now`. -/
def consentExpired (r : ConsentRecordM) (now : ℚ) : Bool :=
  match r.expires_at with
  | none => false
  | some t => decide (t ≤ now)

/-- The `_records` dict keyed by `(agent_id, data_type, purpose)`. -/
def consentGet (store : List ((String × String × Option String) × ConsentRecordM))
    (key : String × String × Option String) : Option ConsentRecordM :=
  (store.find? (fun p => p.1 == key)).map (·.2)

/-- The blanket (`purpose=None`) lookup of `ConsentStore.find`. -/
def consentFindBlanket
    (store : List ((String × String × Option String) × ConsentRecordM))
    (agent dataType : String) (now : ℚ) : Option ConsentRecordM :=
  match consentGet store (agent, dataType, none) with
  | some r => if consentExpired r now then none else some r
  | none => none

/-- `ConsentStore.find`: exact match first (when a purpose is given), then
the blanket record. -/
def consentFind
    (store : List ((String × String × Option String) × ConsentRecordM))
    (agent dataType : String) (purpose : Option String) (now : ℚ) :
    Option ConsentRecordM :=
  match purpose with
  | some p =>
    match consentGet store (agent, dataType, some p) with
    | some r =>
      if consentExpired r now then consentFindBlanket store agent dataType now
      else some r
    | none => consentFindBlanket store agent dataType now
  | none => consentFindBlanket store agent dataType now

/-- `ConsentCheckResult` from `consent/manager.py`. -/
structure GConsentCheckResult where
  granted : Bool
  agent_id : String
  data_type : String
  purpose : Option String
  reason : String
  record : Option ConsentRecordM
deriving DecidableEq

/-- The `f" for purpose '{purpose}'" if purpose else ""` fragment. -/
def purposeText : Option String → String
  | some s => if s = "" then "" else " for purpose '" ++ s ++ "'"
  | none => ""

/-- `ConsentManager.check_consent`. -/
def checkConsent (defaultDeny : Bool)
    (store : List ((String × String × Option String) × ConsentRecordM))
    (agent dataType : String) (purpose : Option String) (now : ℚ) :
    GConsentCheckResult :=
  match consentFind store agent dataType purpose now with
  | some r =>
    { granted := true, agent_id := agent, data_type := dataType,
      purpose := purpose,
      reason := "Consent granted for agent '" ++ agent ++ "' to access '" ++
        dataType ++ "'" ++ purposeText purpose ++ " (granted by '" ++
        r.granted_by ++ "').",
      record := some r }
  | none =>
    if defaultDeny then
      { granted := false, agent_id := agent, data_type := dataType,
        purpose := purpose,
        reason := "No valid consent record found for agent '" ++ agent ++
          "' accessing '" ++ dataType ++ "'" ++ purposeText purpose ++
          ". Defaulting to deny.",
        record := none }
    else
      { granted := true, agent_id := agent, data_type := dataType,
        purpose := purpose,
        reason := "No explicit consent record for agent '" ++ agent ++
          "' accessing '" ++ dataType ++ "'" ++ purposeText purpose ++
          "; permissive mode allows by default.",
        record := none }

/-- `GovernanceDecisionContext` from `audit/record.py`. -/
structure GovDecisionContext where
  agent_id : Option String
  action_type : Option String
  resource : Option String
  scope : Option String
  budget_category : Option String
  data_type : Option String
  purpose : Option String
  extra : List (String × JAtom)
deriving DecidableEq

/-- `AuditRecord` from `audit/record.py` (engine-side logger). -/
structure GovAuditRecord where
  record_id : String
  outcome : String
  decision : String
  reasons : List String
  context : Option GovDecisionContext
  timestamp : ℚ
deriving DecidableEq

/-- `deque(maxlen=max_records).append` for the engine audit logger. -/
def govDequePush (maxRecords : Nat) (acc : List GovAuditRecord)
    (r : GovAuditRecord) : List GovAuditRecord :=
  let acc2 := acc ++ [r]
  if maxRecords < acc2.length then acc2.drop (acc2.length - maxRecords) else acc2

/-- `AuditLogger.log` from `audit/logger.py` (generated UUID and timestamp
supplied by the caller). -/
def auditLog (includeContext : Bool) (maxRecords : Nat)
    (records : List GovAuditRecord) (outcome decision : String)
    (reasons : List String) (context : Option GovDecisionContext)
    (recordId : String) (now : ℚ) : GovAuditRecord × List GovAuditRecord :=
  let r : GovAuditRecord :=
    { record_id := recordId, outcome := outcome, decision := decision,
      reasons := reasons,
      context := if includeContext then context else none,
      timestamp := now }
  (r, govDequePush maxRecords records r)

/-- `GovernanceAction` from `engine.py`. -/
structure GovernanceActionM where
  agent_id : String
  required_trust_level : Option Nat
  scope : Option String
  budget_category : Option String
  budget_amount : Option ℚ
  data_type : Option String
  purpose : Option String
  action_type : Option String
  resource : Option String
  extra : List (String × JAtom)
deriving DecidableEq

/-- `GovernanceDecision` from `engine.py`. -/
structure GovernanceDecisionM where
  outcome : String
  allowed : Bool
  reasons : List String
  audit_record_id : String
  action : GovernanceActionM
deriving DecidableEq

/-- The engine's mutable state: the four managers' stores. -/
structure EngineState where
  trust_store : List ((String × Option String) × GTrustEntry)
  budget_tracker : List (String × GBudgetEnvelope)
  consent_store : List ((String × String × Option String) × ConsentRecordM)
  audit_records : List GovAuditRecord
deriving DecidableEq

/-- `GovernanceConfig` (the fields the evaluation pipeline reads). -/
structure EngineConfig where
  trust : TrustConfigM
  budget_allow_overdraft : Bool
  budget_rollover : Bool
  consent_default_deny : Bool
  audit_max_records : Nat
  audit_include_context : Bool
deriving DecidableEq

/-- ASCII upper-casing of `str.upper()` on the outcome constants. -/
def outcomeUpper (s : String) : String := s.map Char.toUpper

/-- `GovernanceEngine._record_and_build`. -/
def recordAndBuild (cfg : EngineConfig) (st : EngineState)
    (action : GovernanceActionM) (outcome : String) (reasons : List String)
    (recordId : String) (now : ℚ) : GovernanceDecisionM × EngineState :=
  let context : GovDecisionContext :=
    { agent_id := some action.agent_id, action_type := action.action_type,
      resource := action.resource, scope := action.scope,
      budget_category := action.budget_category, data_type := action.data_type,
      purpose := action.purpose, extra := action.extra }
  let decisionText :=
    "Action for agent '" ++ action.agent_id ++ "': " ++ outcomeUpper outcome
  let pr := auditLog cfg.audit_include_context cfg.audit_max_records
    st.audit_records outcome decisionText reasons (some context) recordId now
  ({ outcome := outcome,
     allowed := (outcome == "allow" || outcome == "allow_with_caveat"),
     reasons := reasons, audit_record_id := pr.1.record_id, action := action },
   { st with audit_records := pr.2 })

/-- Step 3 of `GovernanceEngine.evaluate` (consent) plus the final build. -/
def evaluateConsent (cfg : EngineConfig) (st : EngineState)
    (action : GovernanceActionM) (reasons : List String) (recordId : String)
    (now : ℚ) : Except GovError (GovernanceDecisionM × EngineState) :=
  match action.data_type with
  | some dt =>
    let cr := checkConsent cfg.consent_default_deny st.consent_store
      action.agent_id dt action.purpose now
    if cr.granted = false then
      .ok (recordAndBuild cfg st action "deny" (reasons ++ [cr.reason]) recordId now)
    else
      .ok (recordAndBuild cfg st action "allow" (reasons ++ [cr.reason]) recordId now)
  | none => .ok (recordAndBuild cfg st action "allow" reasons recordId now)

/-- Step 2 of `GovernanceEngine.evaluate` (budget): `budget_amount or 0.0`
falls back to zero for both `None` and `0.0`; `check_budget` may raise
`BudgetNotFoundError`, which propagates out of `evaluate`. -/
def evaluateBudget (cfg : EngineConfig) (st : EngineState)
    (action : GovernanceActionM) (reasons : List String) (recordId : String)
    (now : ℚ) : Except GovError (GovernanceDecisionM × EngineState) :=
  match action.budget_category with
  | some cat =>
    match checkBudget st.budget_tracker cat (action.budget_amount.getD 0) with
    | .error e => .error e
    | .ok br =>
      if br.allowed = false then
        .ok (recordAndBuild cfg st action "deny" (reasons ++ [br.reason]) recordId now)
      else
        evaluateConsent cfg st action (reasons ++ [br.reason]) recordId now
  | none => evaluateConsent cfg st action reasons recordId now

/-- `GovernanceEngine.evaluate`: trust, then budget, then consent, with an
immediate deny (and audit write) on the first failing check. -/
def evaluate (cfg : EngineConfig) (st : EngineState)
    (action : GovernanceActionM) (recordId : String) (now : ℚ) :
    Except GovError (GovernanceDecisionM × EngineState) :=
  match action.required_trust_level with
  | some req =>
    let tr := checkLevel cfg.trust st.trust_store action.agent_id req
      action.scope now
    if tr.allowed = false then
      .ok (recordAndBuild cfg st action "deny" [tr.reason] recordId now)
    else
      evaluateBudget cfg st action [tr.reason] recordId now
  | none => evaluateBudget cfg st action [] recordId now

end AumosSdks.GovernancePy

namespace AumosSdks.GovernancePy

open AumosSdks

/-- **C7.** When the trust check fails, `GovernanceEngine.evaluate`
returns a deny decision whose reasons list holds exactly the trust
reason; this holds for every budget state — in particular one whose
budget check would fail or raise — because the budget (and consent) step
is never reached, and no store other than the audit log changes. -/
theorem evaluate_trust_failure_short_circuits (cfg : EngineConfig)
    (st : EngineState) (action : GovernanceActionM) (recordId : String)
    (now : ℚ) (req : Nat)
    (hreq : action.required_trust_level = some req)
    (hfail : (checkLevel cfg.trust st.trust_store action.agent_id req
      action.scope now).allowed = false) :
    ∃ d st2, evaluate cfg st action recordId now = .ok (d, st2) ∧
      d.reasons = [(checkLevel cfg.trust st.trust_store action.agent_id req
        action.scope now).reason] ∧
      d.outcome = "deny" ∧ d.allowed = false ∧
      st2.trust_store = st.trust_store ∧
      st2.budget_tracker = st.budget_tracker ∧
      st2.consent_store = st.consent_store := by
  have heval : evaluate cfg st action recordId now =
      .ok (recordAndBuild cfg st action "deny"
        [(checkLevel cfg.trust st.trust_store action.agent_id req
          action.scope now).reason] recordId now) := by
    unfold evaluate
    rw [hreq]
    dsimp only
    rw [if_pos hfail]
  exact ⟨_, _, heval, rfl, rfl, rfl, rfl, rfl, rfl⟩

/-- Default engine configuration (decay disabled). -/
def c7Cfg : EngineConfig :=
  { trust :=
      { default_level := 1
        enable_decay := false
        decay_cliff_days := some 90
        decay_gradual_days := some 30 }
    budget_allow_overdraft := false
    budget_rollover := false
    consent_default_deny := true
    audit_max_records := 10000
    audit_include_context := true }

/-- A fresh engine: all four stores empty. -/
def c7State : EngineState := ⟨[], [], [], []⟩

/-- An action that requires level 3 (the unknown agent defaults to 1) and
names a budget category that does not exist, so the budget check would
raise if it ran. -/
def c7Action : GovernanceActionM :=
  { agent_id := "agent-1", required_trust_level := some 3, scope := none,
    budget_category := some "llm", budget_amount := some 5, data_type := none,
    purpose := none, action_type := none, resource := none, extra := [] }

/-- Witness for C7 at a concrete failing-trust action. -/
theorem evaluate_trust_short_circuit_witness :
    c7Action.required_trust_level = some 3 ∧
    (checkLevel c7Cfg.trust c7State.trust_store c7Action.agent_id 3
      c7Action.scope 0).allowed = false ∧
    (∃ d st2, evaluate c7Cfg c7State c7Action "rid-1" 0 = .ok (d, st2) ∧
      d.reasons = [(checkLevel c7Cfg.trust c7State.trust_store
        c7Action.agent_id 3 c7Action.scope 0).reason] ∧
      d.outcome = "deny" ∧ d.allowed = false ∧
      st2.trust_store = c7State.trust_store ∧
      st2.budget_tracker = c7State.budget_tracker ∧
      st2.consent_store = c7State.consent_store) :=
  ⟨rfl, rfl,
   evaluate_trust_failure_short_circuits c7Cfg c7State c7Action "rid-1" 0 3
     rfl rfl⟩

end AumosSdks.GovernancePy

namespace AumosSdks.GovernancePy

open AumosSdks

/-- `check_budget` on a present category returns a result whose `allowed`
flag is `amount <= remaining`. -/
theorem checkBudget_some (tr : List (String × GBudgetEnvelope)) (cat : String)
    (amt : ℚ) (env : GBudgetEnvelope) (h : gTrackerGet tr cat = some env) :
    ∃ br, checkBudget tr cat amt = .ok br ∧
      br.allowed = decide (amt ≤ gRemaining env) := by
  unfold checkBudget
  rw [h]
  exact ⟨_, rfl, rfl⟩

/-- The budget step of `evaluate` when no trust level is required and no
data type is given: a missing category raises `BudgetNotFoundError` out of
`evaluate`; otherwise the outcome follows `amount <= remaining`. -/
theorem evaluate_budget_path (cfg : EngineConfig) (st : EngineState)
    (action : GovernanceActionM) (recordId : String) (now : ℚ) (cat : String)
    (htrust : action.required_trust_level = none)
    (hcat : action.budget_category = some cat)
    (hdata : action.data_type = none) :
    (gTrackerGet st.budget_tracker cat = none →
      evaluate cfg st action recordId now = .error (.budgetNotFound cat)) ∧
    (∀ env, gTrackerGet st.budget_tracker cat = some env →
      (decide ((action.budget_amount.getD 0) ≤ gRemaining env) = false →
        ∃ d st2, evaluate cfg st action recordId now = .ok (d, st2) ∧
          d.outcome = "deny" ∧ d.allowed = false) ∧
      (decide ((action.budget_amount.getD 0) ≤ gRemaining env) = true →
        ∃ d st2, evaluate cfg st action recordId now = .ok (d, st2) ∧
          d.outcome = "allow" ∧ d.allowed = true)) := by
  have hstep : evaluate cfg st action recordId now =
      evaluateBudget cfg st action [] recordId now := by
    unfold evaluate
    rw [htrust]
  constructor
  · intro h
    have hcb : checkBudget st.budget_tracker cat (action.budget_amount.getD 0) =
        .error (.budgetNotFound cat) := by
      unfold checkBudget
      rw [h]
    rw [hstep]
    unfold evaluateBudget
    rw [hcat]
    dsimp only
    rw [hcb]
  · intro env henv
    obtain ⟨br, hbr, hall⟩ :=
      checkBudget_some st.budget_tracker cat (action.budget_amount.getD 0) env henv
    constructor
    · intro hdec
      have heval : evaluate cfg st action recordId now =
          .ok (recordAndBuild cfg st action "deny" ([] ++ [br.reason])
            recordId now) := by
        rw [hstep]
        unfold evaluateBudget
        rw [hcat]
        dsimp only
        rw [hbr]
        dsimp only
        rw [if_pos (hall.trans hdec)]
      exact ⟨_, _, heval, rfl, rfl⟩
    · intro hdec
      have htrue : br.allowed = true := hall.trans hdec
      have heval : evaluate cfg st action recordId now =
          .ok (recordAndBuild cfg st action "allow" ([] ++ [br.reason])
            recordId now) := by
        rw [hstep]
        unfold evaluateBudget
        rw [hcat]
        dsimp only
        rw [hbr]
        dsimp only
        rw [if_neg (by rw [htrue]; exact fun hc => Bool.noConfusion hc)]
        unfold evaluateConsent
        rw [hdata]
      exact ⟨_, _, heval, rfl, rfl⟩

/-- **C10 (amended).** With `budget_category` set and `budget_amount`
equal to `None`, `evaluate` runs the budget check at amount `0.0`
(`budget_amount or 0.0`).  The step does not pass unconditionally: it
passes exactly when the category's `remaining` is nonnegative — remaining
can be negative after overdraft spending — and when the category does not
exist, `check_budget` raises `BudgetNotFoundError` out of `evaluate`.
`BudgetManager` has no suspension concept at all. -/
theorem evaluate_none_amount_budget_spec (cfg : EngineConfig)
    (st : EngineState) (action : GovernanceActionM) (recordId : String)
    (now : ℚ) (cat : String)
    (htrust : action.required_trust_level = none)
    (hcat : action.budget_category = some cat)
    (hamt : action.budget_amount = none)
    (hdata : action.data_type = none) :
    (gTrackerGet st.budget_tracker cat = none →
      evaluate cfg st action recordId now = .error (.budgetNotFound cat)) ∧
    (∀ env, gTrackerGet st.budget_tracker cat = some env →
      (0 ≤ gRemaining env →
        ∃ d st2, evaluate cfg st action recordId now = .ok (d, st2) ∧
          d.outcome = "allow" ∧ d.allowed = true) ∧
      (gRemaining env < 0 →
        ∃ d st2, evaluate cfg st action recordId now = .ok (d, st2) ∧
          d.outcome = "deny" ∧ d.allowed = false)) := by
  have hamt0 : action.budget_amount.getD 0 = 0 := by rw [hamt]; rfl
  obtain ⟨h1, h2⟩ :=
    evaluate_budget_path cfg st action recordId now cat htrust hcat hdata
  refine ⟨h1, fun env henv => ?_⟩
  obtain ⟨hd, ha⟩ := h2 env henv
  constructor
  · intro hge
    exact ha (by rw [hamt0]; exact decide_eq_true hge)
  · intro hlt
    exact hd (by rw [hamt0]; exact decide_eq_false (not_le.mpr hlt))

/-- Engine configuration with overdraft recording enabled. -/
def c10OverCfg : EngineConfig :=
  { trust :=
      { default_level := 1
        enable_decay := false
        decay_cliff_days := some 90
        decay_gradual_days := some 30 }
    budget_allow_overdraft := true
    budget_rollover := false
    consent_default_deny := true
    audit_max_records := 10000
    audit_include_context := true }

/-- The envelope `create_budget("llm", 1, "lifetime")` builds. -/
def c10Env0 : GBudgetEnvelope :=
  { category := "llm", limit := 1, period := .lifetime, effective_limit := 1,
    spent := 0, last_reset := ⟨2026, 1, 1⟩, transactions := [] }

/-- The overdraft transaction of 2 against the limit of 1. -/
def c10Tx : GSpendingTransaction :=
  { category := "llm", amount := 2, description := none, recorded_at := 0 }

/-- The envelope after the overdraft: `spent = 2 > effective_limit = 1`. -/
def c10Env2 : GBudgetEnvelope :=
  { category := "llm", limit := 1, period := .lifetime, effective_limit := 1,
    spent := 0 + 2, last_reset := ⟨2026, 1, 1⟩, transactions := [c10Tx] }

/-- An action naming the category with `budget_amount = None`. -/
def c10DenyAction : GovernanceActionM :=
  { agent_id := "a", required_trust_level := none, scope := none,
    budget_category := some "llm", budget_amount := none, data_type := none,
    purpose := none, action_type := none, resource := none, extra := [] }

/-- **C10 (counterexample).** After `create_budget("llm", 1)` and an
overdraft `record_spending("llm", 2)` (allowed by `allow_overdraft`), the
remaining budget is −1, and `evaluate` of an action with that category
and `budget_amount = None` DENIES even though a (never-suspendable)
envelope exists: the zero-amount budget step is not a pass-through. -/
theorem evaluate_zero_amount_denies_after_overdraft :
    createBudget [] "llm" 1 GPeriod.lifetime ⟨2026, 1, 1⟩ =
      .ok [("llm", c10Env0)] ∧
    recordSpending true false [("llm", c10Env0)] "llm" 2 none ⟨2026, 1, 1⟩ 0 =
      .ok (c10Tx, [("llm", c10Env2)]) ∧
    c10DenyAction.budget_amount = none ∧
    gRemaining c10Env2 < 0 ∧
    (∃ d st2, evaluate c10OverCfg ⟨[], [("llm", c10Env2)], [], []⟩
        c10DenyAction "rid-3" 0 = .ok (d, st2) ∧
      d.outcome = "deny" ∧ d.allowed = false) := by
  refine ⟨rfl, rfl, rfl, ?_, ?_⟩
  · norm_num [gRemaining, c10Env2]
  · obtain ⟨h1, h2⟩ := evaluate_budget_path c10OverCfg
      ⟨[], [("llm", c10Env2)], [], []⟩ c10DenyAction "rid-3" 0 "llm" rfl rfl rfl
    apply (h2 c10Env2 rfl).1
    have hamt0 : c10DenyAction.budget_amount.getD 0 = (0 : ℚ) := rfl
    rw [hamt0]
    have hneg : ¬ ((0 : ℚ) ≤ gRemaining c10Env2) := by
      norm_num [gRemaining, c10Env2]
    exact decide_eq_false hneg

/-- The envelope of the C10 witness: nothing spent yet. -/
def c10WitnessEnv : GBudgetEnvelope :=
  { category := "llm", limit := 1, period := .lifetime, effective_limit := 1,
    spent := 0, last_reset := ⟨2026, 1, 1⟩, transactions := [] }

/-- Witness for the amended C10 theorem: the missing-category error and
the nonnegative-remaining pass at concrete inputs. -/
theorem evaluate_none_amount_budget_spec_witness :
    (evaluate c10OverCfg ⟨[], [], [], []⟩ c10DenyAction "rid-4" 0 =
      .error (.budgetNotFound "llm")) ∧
    (0 : ℚ) ≤ gRemaining c10WitnessEnv ∧
    (∃ d st2, evaluate c10OverCfg ⟨[], [("llm", c10WitnessEnv)], [], []⟩
        c10DenyAction "rid-4" 0 = .ok (d, st2) ∧
      d.outcome = "allow" ∧ d.allowed = true) :=
  have hge : (0 : ℚ) ≤ gRemaining c10WitnessEnv := by
    simp [gRemaining, c10WitnessEnv]
  ⟨(evaluate_none_amount_budget_spec c10OverCfg ⟨[], [], [], []⟩ c10DenyAction
      "rid-4" 0 "llm" rfl rfl rfl rfl).1 rfl,
   hge,
   ((evaluate_none_amount_budget_spec c10OverCfg
      ⟨[], [("llm", c10WitnessEnv)], [], []⟩ c10DenyAction "rid-4" 0 "llm"
      rfl rfl rfl rfl).2 c10WitnessEnv rfl).1 hge⟩

end AumosSdks.GovernancePy
